import Mathlib

/-!
Verification of the CollagePro collage editor's geometric core.

The TypeScript source is shallowly embedded: JS numbers are modelled as
rationals (`ℚ`), arrays as lists, JS `Set<string>` selections as
`List String` (membership via `contains`, size via `dedup.length`),
and the mutable `colWidths`/`rowHeights` arrays of the grid layout as
functions `ℕ → ℚ` updated with `Function.update` (all writes are
in-bounds in the source).  Layer fields that no claim touches
(`src`, `zIndex`, `originalWidth`, `originalHeight`) are omitted.
-/

/-- A canvas layer (`CanvasLayer` in `types.ts`), restricted to the fields
the verified operations read or write. -/
structure Layer where
  id : String
  x : ℚ
  y : ℚ
  width : ℚ
  height : ℚ
  name : String
deriving DecidableEq, Repr

/-- An axis-aligned rectangle (`Rect` in `types.ts`). -/
structure Rect where
  x : ℚ
  y : ℚ
  width : ℚ
  height : ℚ
deriving DecidableEq, Repr

/-- Number of distinct ids in a selection, mirroring `Set.size` of the JS
`selectedIds` set (the set holds each id once). -/
def selSize (sel : List String) : ℕ := sel.dedup.length

/-! ## Geometry kernel: `src/utils/geometry.ts` -/

/-- Guide orientation (`SnapGuide.type`). -/
inductive GuideType where
  | vertical
  | horizontal
deriving DecidableEq, Repr

/-- A snap guide line (`SnapGuide` in `geometry.ts`). -/
structure SnapGuide where
  type : GuideType
  position : ℚ
deriving DecidableEq, Repr

/-- Accumulator of the per-axis candidate scan in `getSnapLines`:
`minDiff`/`snap`/`line` start as `Infinity`/`null`/`null` (here `none`). -/
structure ScanSt where
  minDiff : Option ℚ
  snap : Option ℚ
  line : Option ℚ
deriving DecidableEq, Repr

/-- `d < minDiff` where `minDiff` may still be `Infinity` (`none`). -/
def better (d : ℚ) : Option ℚ → Prop
  | none => True
  | some m => d < m

instance : ∀ (d : ℚ) (o : Option ℚ), Decidable (better d o)
  | _, none => isTrue trivial
  | d, some m => inferInstanceAs (Decidable (d < m))

/-- One body of `if (Math.abs(edge - target) < threshold && Math.abs(edge - target) < minDiff)`
inside the `getSnapLines` candidate loop, for a single edge. -/
def edgeStep (edge thr t : ℚ) (st : ScanSt) : ScanSt :=
  if |edge - t| < thr ∧ better |edge - t| st.minDiff then
    ⟨some |edge - t|, some (t - edge), some t⟩
  else st

/-- One iteration of the `xTargets.forEach`/`yTargets.forEach` loop in
`getSnapLines`: the near edge (left/top) is checked before the far edge
(right/bottom). -/
def targetStep (near far thr : ℚ) (st : ScanSt) (t : ℚ) : ScanSt :=
  edgeStep far thr t (edgeStep near thr t st)

/-- Scan of a whole candidate list for one axis of `getSnapLines`. -/
def scanAxis (near far thr : ℚ) (targets : List ℚ) : ScanSt :=
  targets.foldl (targetStep near far thr) ⟨none, none, none⟩

/-- Result record of `getSnapLines`. -/
structure SnapLines where
  x : Option ℚ
  y : Option ℚ
  guides : List SnapGuide
deriving DecidableEq, Repr

/-- The `xTargets` array of `getSnapLines`: `[0, canvasWidth]` then each
other rect's left and right edge. -/
def xTargetsOf (otherRects : List Rect) (canvasWidth : ℚ) : List ℚ :=
  [0, canvasWidth] ++ otherRects.foldr (fun r acc => r.x :: (r.x + r.width) :: acc) []

/-- The `yTargets` array of `getSnapLines`. -/
def yTargetsOf (otherRects : List Rect) (canvasHeight : ℚ) : List ℚ :=
  [0, canvasHeight] ++ otherRects.foldr (fun r acc => r.y :: (r.y + r.height) :: acc) []

/-- `getSnapLines` from `src/utils/geometry.ts`. -/
def getSnapLines (activeRect : Rect) (otherRects : List Rect)
    (canvasWidth canvasHeight thr : ℚ) : SnapLines :=
  let sx := scanAxis activeRect.x (activeRect.x + activeRect.width) thr (xTargetsOf otherRects canvasWidth)
  let sy := scanAxis activeRect.y (activeRect.y + activeRect.height) thr (yTargetsOf otherRects canvasHeight)
  let gx : List SnapGuide := match sx.line with
    | some t => [⟨GuideType.vertical, t⟩]
    | none => []
  let gy : List SnapGuide := match sy.line with
    | some t => [⟨GuideType.horizontal, t⟩]
    | none => []
  ⟨sx.snap, sy.snap, gx ++ gy⟩

/-- `getSnapDelta` from `src/utils/geometry.ts`: single-value variant of the
same scan (`diff = target - value`). -/
def getSnapDelta (value : ℚ) (targets : List ℚ) (thr : ℚ) : Option ℚ :=
  (targets.foldl (fun st t => edgeStep value thr t st) ⟨none, none, none⟩).snap

/-- `resizeLayer` from `src/utils/geometry.ts`: apply a handle-directed
resize, the keep-aspect-ratio correction, then the minimum size clamp. -/
def resizeLayer (layer : Rect) (handle : String) (dx dy : ℚ) (keepRatio : Bool) : Rect :=
  let aspectRatio := layer.width / layer.height
  let w1 := if handle.data.contains 'e' then layer.width + dx else layer.width
  let w2 := if handle.data.contains 'w' then w1 - dx else w1
  let x1 := if handle.data.contains 'w' then layer.x + dx else layer.x
  let h1 := if handle.data.contains 's' then layer.height + dy else layer.height
  let h2 := if handle.data.contains 'n' then h1 - dy else h1
  let y1 := if handle.data.contains 'n' then layer.y + dy else layer.y
  let ratioRes : ℚ × ℚ :=
    if keepRatio then
      if handle = "se" ∨ handle = "nw" then
        let newHeight := w2 / aspectRatio
        (if handle.data.contains 'n' then y1 - (newHeight - h2) else y1, newHeight)
      else if handle = "sw" ∨ handle = "ne" then
        let newHeight := w2 / aspectRatio
        (if handle.data.contains 'n' then y1 - (newHeight - h2) else y1, newHeight)
      else (y1, h2)
    else (y1, h2)
  let y2 := ratioRes.1
  let h3 := ratioRes.2
  let wf := if w2 < 20 then 20 else w2
  let hf := if h3 < 20 then 20 else h3
  ⟨x1, y2, wf, hf⟩

/-! ## Resize/drag step of `handlePointerMove` in `src/App.tsx` -/

/-- Candidate x-targets built in the resize branch of `handlePointerMove`:
`[0]` then `r.x, r.x + r.width` for each other rect. -/
def resizeXTargets (otherRects : List Rect) : List ℚ :=
  0 :: otherRects.foldr (fun r acc => r.x :: (r.x + r.width) :: acc) []

/-- Candidate y-targets of the resize branch of `handlePointerMove`. -/
def resizeYTargets (otherRects : List Rect) : List ℚ :=
  0 :: otherRects.foldr (fun r acc => r.y :: (r.y + r.height) :: acc) []

/-- The resize branch of `handlePointerMove` (`src/App.tsx`): `resizeLayer`
followed, when `snapToGrid` is on, by the per-edge `getSnapDelta` adjustment
of the proposed rectangle. -/
def resizeStepWithSnap (init : Rect) (handle : String) (dx dy : ℚ) (keepRatio : Bool)
    (snapToGrid : Bool) (otherRects : List Rect) (scaledThreshold : ℚ) : Rect :=
  let proposed := resizeLayer init handle dx dy keepRatio
  if snapToGrid then
    let xTargets := resizeXTargets otherRects
    let yTargets := resizeYTargets otherRects
    let activeRight := handle.data.contains 'e'
    let activeLeft := handle.data.contains 'w'
    let activeBottom := handle.data.contains 's'
    let activeTop := handle.data.contains 'n'
    let snapDx : ℚ :=
      if activeRight then ((getSnapDelta (proposed.x + proposed.width) xTargets scaledThreshold).getD 0)
      else if activeLeft then ((getSnapDelta proposed.x xTargets scaledThreshold).getD 0)
      else 0
    let snapDy : ℚ :=
      if activeBottom then ((getSnapDelta (proposed.y + proposed.height) yTargets scaledThreshold).getD 0)
      else if activeTop then ((getSnapDelta proposed.y yTargets scaledThreshold).getD 0)
      else 0
    let w1 := if activeRight ∧ snapDx ≠ 0 then proposed.width + snapDx else proposed.width
    let w2 := if activeLeft ∧ snapDx ≠ 0 then w1 - snapDx else w1
    let x' := if activeLeft ∧ snapDx ≠ 0 then proposed.x + snapDx else proposed.x
    let h1 := if activeBottom ∧ snapDy ≠ 0 then proposed.height + snapDy else proposed.height
    let h2 := if activeTop ∧ snapDy ≠ 0 then h1 - snapDy else h1
    let y' := if activeTop ∧ snapDy ≠ 0 then proposed.y + snapDy else proposed.y
    ⟨x', y', w2, h2⟩
  else proposed

/-- The drag branch of `handlePointerMove` for a single dragged layer:
`newX/newY = init + delta`, then the `getSnapLines` snap offset when
enabled.  Only the position fields are written (`{ ...l, x: newX, y: newY }`). -/
def dragStepSingle (l : Layer) (init : Rect) (dx dy : ℚ) (snapToGrid : Bool)
    (otherRects : List Rect) (scaledThreshold : ℚ) : Layer :=
  let newX := init.x + dx
  let newY := init.y + dy
  if snapToGrid then
    let snapResult := getSnapLines ⟨newX, newY, init.width, init.height⟩ otherRects 5000 5000 scaledThreshold
    { l with
      x := newX + (snapResult.x.getD 0)
      y := newY + (snapResult.y.getD 0) }
  else { l with x := newX, y := newY }

/-! ## Alignment: `handleAlign` in `src/utils/alignmentUtils.ts` -/

/-- Alignment kind (the `type` argument of `handleAlign`). -/
inductive AlignType where
  | left
  | centerH
  | right
  | top
  | middleV
  | bottom
deriving DecidableEq, Repr

/-- `minX` of the selected layers' bounding box: fold of `Math.min` starting
from `Infinity` over a non-empty list, written as a fold from the head. -/
def bbMinX (t : Layer) (ts : List Layer) : ℚ := ts.foldl (fun m l => min m l.x) t.x

/-- `maxX` of the selected layers' bounding box. -/
def bbMaxX (t : Layer) (ts : List Layer) : ℚ :=
  ts.foldl (fun m l => max m (l.x + l.width)) (t.x + t.width)

/-- `minY` of the selected layers' bounding box. -/
def bbMinY (t : Layer) (ts : List Layer) : ℚ := ts.foldl (fun m l => min m l.y) t.y

/-- `maxY` of the selected layers' bounding box. -/
def bbMaxY (t : Layer) (ts : List Layer) : ℚ :=
  ts.foldl (fun m l => max m (l.y + l.height)) (t.y + t.height)

/-- The per-layer `newX` of the `switch (type)` in `handleAlign`. -/
def alignedX (ty : AlignType) (minX maxX : ℚ) (l : Layer) : ℚ :=
  match ty with
  | AlignType.left => minX
  | AlignType.centerH => (minX + maxX) / 2 - l.width / 2
  | AlignType.right => maxX - l.width
  | _ => l.x

/-- The per-layer `newY` of the `switch (type)` in `handleAlign`. -/
def alignedY (ty : AlignType) (minY maxY : ℚ) (l : Layer) : ℚ :=
  match ty with
  | AlignType.top => minY
  | AlignType.middleV => (minY + maxY) / 2 - l.height / 2
  | AlignType.bottom => maxY - l.height
  | _ => l.y

/-- The `targetLayers.map` of `handleAlign` on a non-empty target list. -/
def alignTargets (ty : AlignType) (t : Layer) (ts : List Layer) : List Layer :=
  (t :: ts).map (fun l =>
    { l with
      x := alignedX ty (bbMinX t ts) (bbMaxX t ts) l
      y := alignedY ty (bbMinY t ts) (bbMaxY t ts) l })

/-- `handleAlign` from `src/utils/alignmentUtils.ts`. -/
def handleAlign (layers : List Layer) (sel : List String) (ty : AlignType) : List Layer :=
  if selSize sel < 2 then layers
  else
    match layers.filter (fun l => sel.contains l.id) with
    | [] => layers
    | t :: ts =>
      let aligned := alignTargets ty t ts
      layers.map (fun l =>
        if sel.contains l.id then (aligned.find? (fun a => a.id == l.id)).getD l else l)

/-! ## Layer collection operations (layer utilities imported by `App.tsx`) -/

/-- `duplicateLayer`: the fresh random id is passed in as `newId`. -/
def duplicateLayer (layers : List Layer) (layerId newId : String) : List Layer :=
  match layers.find? (fun l => l.id == layerId) with
  | none => layers
  | some l =>
    layers ++ [{ l with
      id := newId
      x := l.x + 20
      y := l.y + 20
      name := if l.name ≠ "" then l.name ++ " (copy)" else "Layer (copy)" }]

/-- `deleteLayers`: filter out the given ids. -/
def deleteLayers (layers : List Layer) (layerIds : List String) : List Layer :=
  layers.filter (fun l => ¬ layerIds.contains l.id)

/-- `clearCanvas`: returns the empty sequence. -/
def clearCanvas : List Layer := []

/-! ## Auto-stitch -/

/-- Stitch / grid direction. -/
inductive Dir where
  | vertical
  | horizontal
deriving DecidableEq, Repr

/-- Stitch scope setting (`stitchScope`). -/
inductive Scope where
  | selected
  | all
deriving DecidableEq, Repr

/-- The stitch/grid-related fields of `AppSettings` consumed by the layout
algorithms.  `gridRows`/`gridCols` may be the transient empty text-input
state (`''`), modelled as `none`; `stitchGap` is a rational (the source's
`Number(settings.stitchGap) || 0` coercion is the identity on numbers). -/
structure StitchSettings where
  stitchScope : Scope
  smartStitch : Bool
  stitchGap : ℚ
  gridRows : Option ℕ
  gridCols : Option ℕ
  gridDirection : Dir
  gridReverse : Bool
deriving DecidableEq, Repr

/-- `targetLayers` selection shared by the auto-stitch and grid-layout
handlers in `src/App.tsx`: the reversed full list for scope `all`, the
reversed selected sublist for scope `selected`. -/
def scopedTargets (layers : List Layer) (sel : List String) (scope : Scope) : List Layer :=
  match scope with
  | Scope.all => layers.reverse
  | Scope.selected => (layers.filter (fun l => sel.contains l.id)).reverse

/-- The smart-stitch resize of one layer in `handleAutoStitch`
(both the `App.tsx` handler and the `alignmentUtils.ts` utility share
this map body; they differ only in `referenceDimension`). -/
def smartResize (smart : Bool) (dir : Dir) (refDim : ℚ) (l : Layer) : Layer :=
  if smart then
    match dir with
    | Dir.vertical =>
      if l.width ≠ refDim then
        let ratio := l.width / l.height
        { l with width := refDim, height := refDim / ratio }
      else l
    | Dir.horizontal =>
      if l.height ≠ refDim then
        let ratio := l.width / l.height
        { l with height := refDim, width := refDim * ratio }
      else l
  else l

/-- The positioning pass of `handleAutoStitch` (`finalStitched`): layers
after the first are moved to `alignPos` on the cross axis and packed after
the running position plus the gap; the running position always advances to
the placed layer's far edge. -/
def positionStitch (dir : Dir) (alignPos gap : ℚ) : ℚ → ℕ → List Layer → List Layer
  | _, _, [] => []
  | run, i, l :: rest =>
    let l' :=
      if 0 < i then
        match dir with
        | Dir.vertical => { l with x := alignPos, y := run + gap }
        | Dir.horizontal => { l with y := alignPos, x := run + gap }
      else l
    let run' :=
      match dir with
      | Dir.vertical => l'.y + l'.height
      | Dir.horizontal => l'.x + l'.width
    l' :: positionStitch dir alignPos gap run' (i + 1) rest

/-- Merge of the processed scoped layers back into the full list
(`stitchedMap` lookup), shared by stitch and grid layout. -/
def mergeById (layers processed : List Layer) : List Layer :=
  layers.map (fun l => (processed.find? (fun a => a.id == l.id)).getD l)

/-- Core of `handleAutoStitch` on a non-empty target list, parametrised by
the reference dimension (the two source variants pick it differently). -/
def autoStitchCore (settings : StitchSettings) (dir : Dir) (refDim : ℚ)
    (t : Layer) (ts : List Layer) : List Layer :=
  let alignPos := match dir with
    | Dir.vertical => t.x
    | Dir.horizontal => t.y
  let t' := smartResize settings.smartStitch dir refDim t
  let processed := t' :: ts.map (smartResize settings.smartStitch dir refDim)
  let run0 := match dir with
    | Dir.vertical => t'.y
    | Dir.horizontal => t'.x
  positionStitch dir alignPos settings.stitchGap run0 0 processed

/-- `handleAutoStitch` as defined (and invoked) in `src/App.tsx`: the
smart-stitch reference dimension is the first target's own width/height. -/
def handleAutoStitchApp (layers : List Layer) (sel : List String)
    (settings : StitchSettings) (dir : Dir) : List Layer :=
  if layers.isEmpty then layers
  else
    match scopedTargets layers sel settings.stitchScope with
    | [] => layers
    | t :: ts =>
      let refDim : ℚ :=
        if settings.smartStitch then
          match dir with
          | Dir.vertical => t.width
          | Dir.horizontal => t.height
        else 0
      mergeById layers (autoStitchCore settings dir refDim t ts)

/-- `handleAutoStitch` from `src/utils/alignmentUtils.ts` (imported but not
invoked by the app): the reference dimension is the maximum width/height
over the targets. -/
def handleAutoStitchUtil (layers : List Layer) (sel : List String)
    (settings : StitchSettings) (dir : Dir) : List Layer :=
  if layers.isEmpty then layers
  else
    match scopedTargets layers sel settings.stitchScope with
    | [] => layers
    | t :: ts =>
      let refDim : ℚ :=
        if settings.smartStitch then
          match dir with
          | Dir.vertical => ts.foldl (fun m l => max m l.width) t.width
          | Dir.horizontal => ts.foldl (fun m l => max m l.height) t.height
        else 0
      mergeById layers (autoStitchCore settings dir refDim t ts)

/-! ## Grid layout: `handleGridLayout`
(`src/utils/gridLayoutUtils.ts`; `src/App.tsx` has an identical local copy,
which is the one wired to the UI). -/

/-- `enum` with an explicit start, used to model `forEach((layer, index))`. -/
def enumL {α : Type} : ℕ → List α → List (ℕ × α)
  | _, [] => []
  | n, a :: as => (n, a) :: enumL (n + 1) as

/-- Column index of grid slot `i` (`index % cols` row-major,
`Math.floor(index / rows)` column-major). -/
def colOf (dir : Dir) (rows cols i : ℕ) : ℕ :=
  match dir with
  | Dir.horizontal => i % cols
  | Dir.vertical => i / rows

/-- Row index of grid slot `i`. -/
def rowOf (dir : Dir) (rows cols i : ℕ) : ℕ :=
  match dir with
  | Dir.horizontal => i / cols
  | Dir.vertical => i % rows

/-- The in-place `arr[k] = Math.max(arr[k], v)` accumulation of the first
`targetLayers.forEach` pass of `handleGridLayout`, over an indexed layer
list, skipping indices at or beyond the grid capacity. -/
def maxFold (cap : ℕ) (k : ℕ × Layer → ℕ) (v : ℕ × Layer → ℚ)
    (ps : List (ℕ × Layer)) (f0 : ℕ → ℚ) : ℕ → ℚ :=
  ps.foldl
    (fun f p => if p.1 < cap then Function.update f (k p) (max (f (k p)) (v p)) else f)
    f0

/-- The `colWidths` array after the first `targetLayers.forEach` pass,
modelled as a function from column index (all source writes are in bounds). -/
def colWidths (dir : Dir) (rows cols : ℕ) (targets : List Layer) : ℕ → ℚ :=
  maxFold (rows * cols) (fun p => colOf dir rows cols p.1) (fun p => p.2.width)
    (enumL 0 targets) (fun _ => 0)

/-- The `rowHeights` array after the first `targetLayers.forEach` pass. -/
def rowHeights (dir : Dir) (rows cols : ℕ) (targets : List Layer) : ℕ → ℚ :=
  maxFold (rows * cols) (fun p => rowOf dir rows cols p.1) (fun p => p.2.height)
    (enumL 0 targets) (fun _ => 0)

/-- `array.slice(0, n).reduce((sum, v) => sum + v, 0)` over the modelled
arrays: sum of the first `n` entries. -/
def sumTo (f : ℕ → ℚ) (n : ℕ) : ℚ :=
  (List.range n).foldl (fun s i => s + f i) 0

/-- Placement of one target layer (`layouted` map body of
`handleGridLayout`): aspect-fit into its cell and center. -/
def placeInCell (dir : Dir) (rows cols : ℕ) (gap startX startY : ℚ)
    (colW rowH : ℕ → ℚ) (i : ℕ) (l : Layer) : Layer :=
  if i < rows * cols then
    let col := colOf dir rows cols i
    let row := rowOf dir rows cols i
    let cellX := startX + sumTo colW col + col * gap
    let cellY := startY + sumTo rowH row + row * gap
    let cellWidth := colW col
    let cellHeight := rowH row
    let aspectRatio := l.width / l.height
    let fit : ℚ × ℚ :=
      if cellWidth / aspectRatio > cellHeight then (cellHeight * aspectRatio, cellHeight)
      else (cellWidth, cellWidth / aspectRatio)
    let offsetX := (cellWidth - fit.1) / 2
    let offsetY := (cellHeight - fit.2) / 2
    { l with x := cellX + offsetX, y := cellY + offsetY, width := fit.1, height := fit.2 }
  else l

/-- Core of `handleGridLayout` on the chosen target list. -/
def gridLayoutCore (settings : StitchSettings) (pan : ℚ × ℚ) (zoom winW winH : ℚ)
    (layers targets0 : List Layer) : List Layer :=
  let targets := if settings.gridReverse then targets0.reverse else targets0
  let rows := settings.gridRows.getD 2
  let cols := settings.gridCols.getD 2
  let gap := settings.stitchGap
  let colW := colWidths settings.gridDirection rows cols targets
  let rowH := rowHeights settings.gridDirection rows cols targets
  let totalWidth := sumTo colW cols + (cols - 1 : ℕ) * gap
  let totalHeight := sumTo rowH rows + (rows - 1 : ℕ) * gap
  let centerX := -pan.1 + (winW / 2) / zoom
  let centerY := -pan.2 + (winH / 2) / zoom
  let startX := centerX - totalWidth / 2
  let startY := centerY - totalHeight / 2
  let layouted := (enumL 0 targets).map
    (fun p => placeInCell settings.gridDirection rows cols gap startX startY colW rowH p.1 p.2)
  mergeById layers layouted

/-- `handleGridLayout` (`src/utils/gridLayoutUtils.ts` and the identical
in-app copy); `winW`/`winH` stand for `window.innerWidth/innerHeight`. -/
def handleGridLayout (layers : List Layer) (sel : List String)
    (settings : StitchSettings) (pan : ℚ × ℚ) (zoom winW winH : ℚ) : List Layer :=
  if layers.isEmpty then layers
  else
    let targets0 := scopedTargets layers sel settings.stitchScope
    if settings.stitchScope = Scope.selected ∧ targets0.isEmpty then layers
    else gridLayoutCore settings pan zoom winW winH layers targets0

/-! ## Viewport: `zoomAtPoint` / `handleFitView` (`src/utils/canvasUtils.ts`) -/

/-- A zoom/pan pair. -/
structure ViewState where
  zoom : ℚ
  pan : ℚ × ℚ
deriving DecidableEq, Repr

/-- `zoomAtPoint`: clamp the requested zoom to `[0.2, 3]`, default the
anchor to the container center, and recompute the pan around the anchor. -/
def zoomAtPoint (newZoom zoom : ℚ) (pan : ℚ × ℚ) (containerW containerH : ℚ)
    (anchorX anchorY : Option ℚ) : ViewState :=
  let clampedZoom := min 3 (max (1/5) newZoom)
  let pointX := anchorX.getD (containerW / 2)
  let pointY := anchorY.getD (containerH / 2)
  let zoomRatio := clampedZoom / zoom
  ⟨clampedZoom, (pointX - (pointX - pan.1) * zoomRatio, pointY - (pointY - pan.2) * zoomRatio)⟩

/-- `handleFitView`: bounding box of the layers, scale-to-fit with a 50px
padding, upper zoom clamp at 3, and centering pan.  `container` is `none`
when the container element is not mounted. -/
def handleFitView (layers : List Layer) (container : Option (ℚ × ℚ)) : ViewState :=
  match layers, container with
  | [], _ => ⟨1, (0, 0)⟩
  | _, none => ⟨1, (0, 0)⟩
  | t :: ts, some (viewW, viewH) =>
    let minX := ts.foldl (fun m l => min m l.x) t.x
    let minY := ts.foldl (fun m l => min m l.y) t.y
    let maxX := ts.foldl (fun m l => max m (l.x + l.width)) (t.x + t.width)
    let maxY := ts.foldl (fun m l => max m (l.y + l.height)) (t.y + t.height)
    let contentWidth := maxX - minX
    let contentHeight := maxY - minY
    let padding : ℚ := 50
    let scaleX := (viewW - padding * 2) / contentWidth
    let scaleY := (viewH - padding * 2) / contentHeight
    let newZoom := min 3 (min scaleX scaleY)
    let centeredX := (viewW - contentWidth * newZoom) / 2 - minX * newZoom
    let centeredY := (viewH - contentHeight * newZoom) / 2 - minY * newZoom
    ⟨newZoom, (centeredX, centeredY)⟩

/-! ## History manager: `useHistory` (custom hook) -/

/-- The state held by `useHistory`: the snapshot list and the current index. -/
structure HistoryState (α : Type) where
  history : List α
  index : ℕ
deriving DecidableEq, Repr

/-- Initial history: `[initialLayers]` at index 0. -/
def historyInit {α : Type} (initial : α) : HistoryState α := ⟨[initial], 0⟩

/-- `pushHistory`: `history.slice(0, historyIndex + 1)`, append, index to the
new last entry. -/
def pushHistory {α : Type} (s : HistoryState α) (a : α) : HistoryState α :=
  let newHistory := s.history.take (s.index + 1) ++ [a]
  ⟨newHistory, newHistory.length - 1⟩

/-- `undo`: step back and return the previous snapshot, or `none` at the
left boundary. -/
def undo {α : Type} (s : HistoryState α) : Option α × HistoryState α :=
  if 0 < s.index then (s.history.get? (s.index - 1), ⟨s.history, s.index - 1⟩)
  else (none, s)

/-- `redo`: step forward and return the next snapshot, or `none` at the
right boundary. -/
def redo {α : Type} (s : HistoryState α) : Option α × HistoryState α :=
  if s.index < s.history.length - 1 then (s.history.get? (s.index + 1), ⟨s.history, s.index + 1⟩)
  else (none, s)

/-! ## App-level operations touching layers, selection and history
(`src/App.tsx`) -/

/-- The app state the claims quantify over: layer sequence, selection and
history. -/
structure AppState where
  layers : List Layer
  sel : List String
  hist : HistoryState (List Layer)

/-- `deleteSelected` in `App.tsx`: delete, clear the selection, push. -/
def appDeleteSelected (s : AppState) : AppState :=
  let newLayers := deleteLayers s.layers s.sel
  ⟨newLayers, [], pushHistory s.hist newLayers⟩

/-- `deleteLayers` handler in `App.tsx` (panel delete): delete the given
ids, clear the selection, push. -/
def appDeleteLayers (s : AppState) (ids : List String) : AppState :=
  let newLayers := deleteLayers s.layers ids
  ⟨newLayers, [], pushHistory s.hist newLayers⟩

/-- `clearCanvas` in `App.tsx`: empty the layers, clear the selection, push. -/
def appClearCanvas (s : AppState) : AppState :=
  ⟨clearCanvas, [], pushHistory s.hist clearCanvas⟩

/-- `handleUndo` in `App.tsx`: `setLayers` only when `undo()` returned a
snapshot; the selection is left as it is. -/
def appUndo (s : AppState) : AppState :=
  match undo s.hist with
  | (some l, h) => ⟨l, s.sel, h⟩
  | (none, h) => ⟨s.layers, s.sel, h⟩

/-- `handleRedo` in `App.tsx`. -/
def appRedo (s : AppState) : AppState :=
  match redo s.hist with
  | (some l, h) => ⟨l, s.sel, h⟩
  | (none, h) => ⟨s.layers, s.sel, h⟩

/-- `loadVersion` in `App.tsx`: replace the layers with the saved version
and push; the selection is left as it is. -/
def appLoadVersion (s : AppState) (v : List Layer) : AppState :=
  ⟨v, s.sel, pushHistory s.hist v⟩

/-! ## Import-time name sort (`finishImport` in `src/App.tsx`) -/

/-- ASCII lower-casing of one character (`toLowerCase` on the ASCII range). -/
def lowerChar (c : Char) : Char :=
  if 65 ≤ c.toNat ∧ c.toNat ≤ 90 then Char.ofNat (c.toNat + 32) else c

/-- Lexicographic code-point order on character sequences. -/
def charListLt : List Char → List Char → Bool
  | [], [] => false
  | [], _ :: _ => true
  | _ :: _, [] => false
  | a :: as, b :: bs => if a < b then true else if b < a then false else charListLt as bs

/-- The import comparator key: the layer name lower-cased
(`(a.name || '').toLowerCase()`). -/
def nameKey (l : Layer) : List Char := l.name.data.map lowerChar

/-- Insert into a name-sorted list; together with `sortByName` this models
`Array.prototype.sort` with the comparator
`a.name.toLowerCase().localeCompare(b.name.toLowerCase())` (for the ASCII
names used here, `localeCompare` agrees with code-point order). -/
def insertByName (l : Layer) : List Layer → List Layer
  | [] => [l]
  | h :: t => if charListLt (nameKey h) (nameKey l) then h :: insertByName l t else l :: h :: t

/-- Name-ascending sort of a layer list. -/
def sortByName (ls : List Layer) : List Layer := ls.foldr insertByName []

/-- `finishImport` into an empty document: the new layers are sorted by
name, appended to the (empty) list, and — this being the first import —
the whole list is sorted by name again.  The `zIndex` renumbering only
writes the omitted `zIndex` field. -/
def finishImportEmpty (newLayers : List Layer) : List Layer :=
  sortByName ([] ++ sortByName newLayers)

/-! ## Concrete instances used by the counterexamples and witnesses -/

/-- Example stitch/grid settings: scope `all`, 2×2 grid, horizontal,
no gap, no reverse, smart stitch off. -/
def gridSettings : StitchSettings :=
  ⟨Scope.all, false, 0, some 2, some 2, Dir.horizontal, false⟩

/-- Example settings with smart stitch enabled. -/
def smartSettings : StitchSettings :=
  ⟨Scope.all, true, 0, some 2, some 2, Dir.vertical, false⟩

/-- `a.png` layer of the end-to-end import scenario. -/
def layerA : Layer := ⟨"a", 0, 0, 100, 100, "a.png"⟩

/-- `b.png` layer of the end-to-end import scenario. -/
def layerB : Layer := ⟨"b", 10, 0, 100, 100, "b.png"⟩

/-- `c.png` layer of the end-to-end import scenario. -/
def layerC : Layer := ⟨"c", 20, 0, 100, 100, "c.png"⟩

/-- `d.png` layer of the end-to-end import scenario. -/
def layerD : Layer := ⟨"d", 30, 0, 100, 100, "d.png"⟩

/-- The document obtained by importing `b.png, a.png, d.png, c.png` into an
empty document. -/
def importedDoc : List Layer := finishImportEmpty [layerB, layerA, layerD, layerC]

/-- A wide, short layer (100×25) used by the stitch counterexamples. -/
def wideLayer : Layer := ⟨"2", 0, 50, 100, 25, "two"⟩

/-- A small square layer (20×20) used by the stitch counterexamples. -/
def smallLayer : Layer := ⟨"1", 0, 0, 20, 20, "one"⟩

/-- App state for the selection-invariant counterexample: layers `[A, B]`,
selection `{B}`, history `[[A], [A, B]]` at index 1 (the duplicate-then-
select-then-undo scenario). -/
def staleSelState : AppState :=
  ⟨[⟨"A", 0, 0, 20, 20, "A"⟩, ⟨"B", 5, 5, 20, 20, "B"⟩],
   ["B"],
   ⟨[[⟨"A", 0, 0, 20, 20, "A"⟩], [⟨"A", 0, 0, 20, 20, "A"⟩, ⟨"B", 5, 5, 20, 20, "B"⟩]], 1⟩⟩

/-! ## Pair view of the snap candidate scan (proof infrastructure for the
`getSnapLines` specification) -/

/-- The (edge, candidate) pairs examined by one axis of `getSnapLines`, in
scan order: for each candidate, the near edge then the far edge. -/
def pairsOf (near far : ℚ) : List ℚ → List (ℚ × ℚ)
  | [] => []
  | t :: ts => (near, t) :: (far, t) :: pairsOf near far ts

/-- `edgeStep` as a step over (edge, candidate) pairs. -/
def pairStep (thr : ℚ) (st : ScanSt) (p : ℚ × ℚ) : ScanSt :=
  edgeStep p.1 thr p.2 st

/-- Invariant of the candidate scan over a processed pair list: either
nothing was within threshold and the state is untouched, or the state holds
a within-threshold pair of minimal distance (first-found among ties). -/
def PairInv (thr : ℚ) (ps : List (ℚ × ℚ)) (st : ScanSt) : Prop :=
  (st = ⟨none, none, none⟩ ∧ ∀ p ∈ ps, ¬(|p.1 - p.2| < thr)) ∨
  (∃ p ∈ ps, |p.1 - p.2| < thr ∧
    st = ⟨some |p.1 - p.2|, some (p.2 - p.1), some p.2⟩ ∧
    ∀ q ∈ ps, |p.1 - p.2| ≤ |q.1 - q.2|)

/-! ## Theorems -/

/-- C8: `pushHistory` truncates all entries after the current index, appends
the new snapshot, and sets the index to the new last entry; `undo` at index 0
and `redo` at the last index return `none` and leave the history and index
unchanged; and after `push A; push B; undo; push C`, `redo` returns `none`
(and that `undo` returned `A`). -/
theorem history_manager_contract {α : Type} (s : HistoryState α) (a i A B C : α) :
    (pushHistory s a).history = s.history.take (s.index + 1) ++ [a] ∧
    (pushHistory s a).index = (pushHistory s a).history.length - 1 ∧
    (s.index = 0 → undo s = (none, s)) ∧
    (s.index = s.history.length - 1 → redo s = (none, s)) ∧
    ((undo (pushHistory (pushHistory (historyInit i) A) B)).1 = some A ∧
      (redo (pushHistory (undo (pushHistory (pushHistory (historyInit i) A) B)).2 C)).1 = none) := by
  refine ⟨rfl, rfl, ?_, ?_, ?_, ?_⟩
  · intro h
    simp [undo, h]
  · intro h
    have : ¬ s.index < s.history.length - 1 := by omega
    simp [redo, this]
  · simp [historyInit, pushHistory, undo]
  · simp [historyInit, pushHistory, undo, redo]

/-- Closed instance of `history_manager_contract` discharging its
hypothesised conjuncts at a concrete boundary state. -/
theorem history_manager_contract_witness :
    undo (⟨[[0]], 0⟩ : HistoryState (List ℕ)) = (none, ⟨[[0]], 0⟩) ∧
    redo (⟨[[0]], 0⟩ : HistoryState (List ℕ)) = (none, ⟨[[0]], 0⟩) := by
  exact ⟨(history_manager_contract ⟨[[0]], 0⟩ [0] [0] [1] [2] [3]).2.2.1 rfl,
         (history_manager_contract ⟨[[0]], 0⟩ [0] [0] [1] [2] [3]).2.2.2.1 rfl⟩

/-- C2 (counterexample): `handleFitView` on a 10000×10000 layer in an
800×600 container returns zoom `1/20`, which is below the claimed lower
clamp `0.2 = 1/5`. -/
theorem fitview_zoom_below_clamp :
    (handleFitView [⟨"t", 0, 0, 10000, 10000, "t"⟩] (some (800, 600))).zoom = 1/20 ∧
    ¬ ((1/5 : ℚ) ≤ (handleFitView [⟨"t", 0, 0, 10000, 10000, "t"⟩] (some (800, 600))).zoom) := by
  constructor
  · norm_num [handleFitView]
  · norm_num [handleFitView]

/-- C2 (amended): every zoom produced by `zoomAtPoint` lies in `[0.2, 3]`;
`handleFitView` only enforces the upper bound: its zoom is always ≤ 3 (and
is 1 for an empty layer list or missing container), but it is not clamped
from below. -/
theorem zoom_clamp_bounds (newZoom zoom : ℚ) (pan : ℚ × ℚ) (cw ch : ℚ)
    (ax ay : Option ℚ) (layers : List Layer) (container : Option (ℚ × ℚ)) :
    (1/5 : ℚ) ≤ (zoomAtPoint newZoom zoom pan cw ch ax ay).zoom ∧
    (zoomAtPoint newZoom zoom pan cw ch ax ay).zoom ≤ 3 ∧
    (handleFitView layers container).zoom ≤ 3 := by
  refine ⟨?_, ?_, ?_⟩
  · exact le_min (by norm_num) (le_max_left _ _)
  · exact min_le_left _ _
  · cases layers with
    | nil => norm_num [handleFitView]
    | cons t ts =>
      cases container with
      | none => norm_num [handleFitView]
      | some c =>
        cases c with
        | mk vw vh => exact min_le_left _ _

/-- C5 (counterexample): from layers `[A, B]` with `B` selected and history
`[[A], [A, B]]` at index 1, `handleUndo` rolls the layers back to `[A]` but
leaves the selection `{B}`, so the selection keeps the id of a layer that is
no longer in the layer sequence. -/
theorem undo_keeps_stale_selection :
    (appUndo staleSelState).sel = ["B"] ∧
    (appUndo staleSelState).layers.map (fun l => l.id) = ["A"] ∧
    ¬ ("B" ∈ (appUndo staleSelState).layers.map (fun l => l.id)) := by
  refine ⟨?_, ?_, ?_⟩ <;> decide

/-- C5 (amended): the delete-path operations (`deleteSelected`, the panel
`deleteLayers`, `clearCanvas`) reset the selection to empty, so they prune
removed ids; but `handleUndo`, `handleRedo` and `loadVersion` leave the
selection untouched, so an id absent from the resulting layer sequence can
persist in the selection. -/
theorem selection_pruning_by_operation (s : AppState) (ids : List String)
    (v : List Layer) :
    (appDeleteSelected s).sel = [] ∧
    (appDeleteLayers s ids).sel = [] ∧
    (appClearCanvas s).sel = [] ∧
    (appUndo s).sel = s.sel ∧
    (appRedo s).sel = s.sel ∧
    (appLoadVersion s v).sel = s.sel := by
  refine ⟨rfl, rfl, rfl, ?_, ?_, rfl⟩
  · unfold appUndo
    rcases h : undo s.hist with ⟨o, hst⟩
    cases o <;> rfl
  · unfold appRedo
    rcases h : redo s.hist with ⟨o, hst⟩
    cases o <;> rfl

/-- C10: `zoomAtPoint` is anchor-preserving: for any nonzero current zoom,
the canvas point displayed at the (resolved) anchor before the zoom is
displayed there after it: `(anchor - pan') / zoom' = (anchor - pan) / zoom`
on both axes. -/
theorem zoomAtPoint_anchor_preserving (newZoom zoom : ℚ) (pan : ℚ × ℚ)
    (cw ch : ℚ) (ax ay : Option ℚ) (hz : zoom ≠ 0) :
    (ax.getD (cw / 2) - (zoomAtPoint newZoom zoom pan cw ch ax ay).pan.1) /
        (zoomAtPoint newZoom zoom pan cw ch ax ay).zoom =
      (ax.getD (cw / 2) - pan.1) / zoom ∧
    (ay.getD (ch / 2) - (zoomAtPoint newZoom zoom pan cw ch ax ay).pan.2) /
        (zoomAtPoint newZoom zoom pan cw ch ax ay).zoom =
      (ay.getD (ch / 2) - pan.2) / zoom := by
  have hc : (0 : ℚ) < min 3 (max (1/5) newZoom) :=
    lt_min (by norm_num) (lt_of_lt_of_le (by norm_num) (le_max_left _ _))
  constructor
  · show (ax.getD (cw / 2) - (ax.getD (cw / 2) - (ax.getD (cw / 2) - pan.1) * (min 3 (max (1/5) newZoom) / zoom))) / min 3 (max (1/5) newZoom) = (ax.getD (cw / 2) - pan.1) / zoom
    field_simp
    ring
  · show (ay.getD (ch / 2) - (ay.getD (ch / 2) - (ay.getD (ch / 2) - pan.2) * (min 3 (max (1/5) newZoom) / zoom))) / min 3 (max (1/5) newZoom) = (ay.getD (ch / 2) - pan.2) / zoom
    field_simp
    ring

/-- Closed instance of `zoomAtPoint_anchor_preserving` at zoom 1,
requested zoom 2, pan (10, 20), container 800×600, default anchor. -/
theorem zoomAtPoint_anchor_preserving_witness :
    ((Option.none : Option ℚ).getD ((800 : ℚ) / 2) -
        (zoomAtPoint 2 1 (10, 20) 800 600 none none).pan.1) /
      (zoomAtPoint 2 1 (10, 20) 800 600 none none).zoom =
      ((Option.none : Option ℚ).getD ((800 : ℚ) / 2) - 10) / 1 := by
  exact (zoomAtPoint_anchor_preserving 2 1 (10, 20) 800 600 none none (by norm_num)).1

/-- C1 (counterexample): aligning two selected layers at x = 0 and x = 10
with type `left` sets both x to 0: the pairwise difference
`layer1.x - layer2.x` changes from `-10` to `0`, so the layers are snapped
individually, not moved by one common offset. -/
theorem align_left_changes_relative_offsets :
    (handleAlign [⟨"1", 0, 0, 30, 30, "one"⟩, ⟨"2", 10, 5, 30, 30, "two"⟩]
        ["1", "2"] AlignType.left).map (fun l => l.x) = [0, 0] ∧
    ¬ ((0 : ℚ) - 0 = 0 - 10) := by
  constructor
  · decide
  · norm_num

/-- C3 (counterexample): in the end-to-end scenario (import
`b.png, a.png, d.png, c.png`, then 2×2 horizontal grid layout on all with
`gridReverse` off, viewport 800×600 at pan (0,0), zoom 1) the cell
(row 0, col 0) starts at (300, 200), but layer `a` ends at (400, 300) —
the cell (row 1, col 1) — not at (300, 200) as the claim requires. -/
theorem grid_scenario_a_not_in_first_cell :
    ((handleGridLayout importedDoc [] gridSettings (0, 0) 1 800 600).find?
        (fun l => l.id == "a")).map (fun l => (l.x, l.y)) = some (400, 300) ∧
    (some ((400 : ℚ), (300 : ℚ)) ≠ some ((300 : ℚ), (200 : ℚ))) := by
  have himp : importedDoc = [layerA, layerB, layerC, layerD] := by decide
  constructor
  · rw [himp]
    norm_num [handleGridLayout, scopedTargets, gridLayoutCore, gridSettings, colWidths,
      rowHeights, maxFold, enumL, colOf, rowOf, sumTo, placeInCell, mergeById,
      Function.update_apply, List.range, List.range.loop, List.find?,
      layerA, layerB, layerC, layerD]
    decide
  · decide

/-- C3 (amended): the import sorts the four files name-ascending to
`a, b, c, d`, but grid layout packs `targetLayers = [...layers].reverse()`,
so with `gridReverse` off the *last* layer of the sequence is placed first:
`d` → (row 0, col 0) at (300, 200), `c` → (row 0, col 1) at (400, 200),
`b` → (row 1, col 0) at (300, 300), and `a` → (row 1, col 1) at (400, 300). -/
theorem grid_scenario_reversed_packing :
    importedDoc.map (fun l => l.name) = ["a.png", "b.png", "c.png", "d.png"] ∧
    (handleGridLayout importedDoc [] gridSettings (0, 0) 1 800 600).map
        (fun l => (l.id, l.x, l.y)) =
      [("a", (400 : ℚ), (300 : ℚ)), ("b", 300, 300), ("c", 400, 200), ("d", 300, 200)] := by
  have himp : importedDoc = [layerA, layerB, layerC, layerD] := by decide
  constructor
  · decide
  · rw [himp]
    norm_num [handleGridLayout, scopedTargets, gridLayoutCore, gridSettings, colWidths,
      rowHeights, maxFold, enumL, colOf, rowOf, sumTo, placeInCell, mergeById,
      Function.update_apply, List.range, List.range.loop, List.find?,
      layerA, layerB, layerC, layerD]
    decide

/-- C4 (counterexample): with smart stitch on, vertically auto-stitching the
document `[wide (100×25), small (20×20)]` (scope `all`) resizes the wide
layer to width 20 — the width of the *first* target (the last layer in array
order) — and not to the maximum scoped width 100 as the claim states. -/
theorem smart_stitch_not_max_width :
    ((handleAutoStitchApp [wideLayer, smallLayer] [] smartSettings Dir.vertical).find?
        (fun l => l.id == "2")).map (fun l => l.width) = some 20 ∧
    ((scopedTargets [wideLayer, smallLayer] [] Scope.all).map (fun l => l.width)).foldr max 0 = 100 ∧
    (some (20 : ℚ) ≠ some (100 : ℚ)) := by
  refine ⟨?_, ?_, ?_⟩ <;> decide

/-- C6 (counterexample): starting from layers of size ≥ 20 everywhere
(active snapshot 30×30 at the origin, another layer at x = 13 sized
100×30), one resize step on the east handle with dx = −15 first clamps the
width to 20, then the snap-delta adjustment (threshold 10) pulls the right
edge onto the other layer's left edge at 13, leaving width 13 < 20. -/
theorem resize_snap_breaks_min_size :
    resizeStepWithSnap ⟨0, 0, 30, 30⟩ "e" (-15) 0 false true [⟨13, 50, 100, 30⟩] 10 =
      ⟨0, 0, 13, 30⟩ ∧
    ((13 : ℚ) < 20) := by
  constructor
  · have h1 : resizeLayer ⟨0, 0, 30, 30⟩ "e" (-15) 0 false = ⟨0, 0, 20, 30⟩ := by
      norm_num +decide [resizeLayer]
    norm_num +decide [resizeStepWithSnap, h1, resizeXTargets, resizeYTargets, getSnapDelta,
      edgeStep, better]
  · norm_num

/-- C7 (counterexample): grid layout invoked with exactly one layer in scope
(scope `all`, document `[t]` with `t` 100×100 at the origin, 2×2 grid,
viewport 800×600, pan (0,0), zoom 1) moves the layer to (350, 250): a
one-layer scope is *not* a no-op for grid layout. -/
theorem grid_single_layer_moves :
    handleGridLayout [⟨"t", 0, 0, 100, 100, "t"⟩] [] gridSettings (0, 0) 1 800 600 =
      [⟨"t", 350, 250, 100, 100, "t"⟩] ∧
    ((350 : ℚ) ≠ 0) := by
  constructor
  · norm_num [handleGridLayout, scopedTargets, gridLayoutCore, gridSettings, colWidths,
      rowHeights, maxFold, enumL, colOf, rowOf, sumTo, placeInCell, mergeById,
      Function.update_apply, List.range, List.range.loop, List.find?]
  · norm_num

/-- The per-target fold of one `getSnapLines` axis equals the fold over its
(edge, candidate) pair list. -/
theorem foldl_targetStep_eq_pairs (near far thr : ℚ) (ts : List ℚ) : ∀ st : ScanSt,
    ts.foldl (targetStep near far thr) st = (pairsOf near far ts).foldl (pairStep thr) st := by
  induction ts with
  | nil => intro st; rfl
  | cons t ts ih =>
    intro st
    simp only [List.foldl_cons, pairsOf, ih]
    rfl

/-- One pair step preserves the scan invariant. -/
theorem pairInv_step (thr : ℚ) (ps : List (ℚ × ℚ)) (st : ScanSt) (p : ℚ × ℚ)
    (h : PairInv thr ps st) : PairInv thr (ps ++ [p]) (pairStep thr st p) := by
  unfold pairStep edgeStep
  rcases h with ⟨hst, hall⟩ | ⟨q, hq, hlt, hst, hmin⟩
  · subst hst
    by_cases hc : |p.1 - p.2| < thr
    · right
      refine ⟨p, by simp, hc, ?_, ?_⟩
      · simp only
        rw [if_pos ⟨hc, trivial⟩]
      · intro q hqmem
        rcases List.mem_append.mp hqmem with hq | hq
        · exact le_of_lt (lt_of_lt_of_le hc (not_lt.mp (hall q hq)))
        · simp only [List.mem_singleton] at hq
          subst hq
          exact le_refl _
    · left
      constructor
      · simp only
        rw [if_neg]
        rintro ⟨h1, _⟩
        exact hc h1
      · intro q hqmem
        rcases List.mem_append.mp hqmem with hq | hq
        · exact hall q hq
        · simp only [List.mem_singleton] at hq
          subst hq
          exact hc
  · subst hst
    by_cases hc : |p.1 - p.2| < thr ∧ |p.1 - p.2| < |q.1 - q.2|
    · right
      refine ⟨p, by simp, hc.1, ?_, ?_⟩
      · simp only
        rw [if_pos ⟨hc.1, hc.2⟩]
      · intro r hrmem
        rcases List.mem_append.mp hrmem with hr | hr
        · exact le_trans (le_of_lt hc.2) (hmin r hr)
        · simp only [List.mem_singleton] at hr
          subst hr
          exact le_refl _
    · right
      refine ⟨q, List.mem_append_left _ hq, hlt, ?_, ?_⟩
      · simp only
        rw [if_neg]
        rintro ⟨h1, h2⟩
        exact hc ⟨h1, h2⟩
      · intro r hrmem
        rcases List.mem_append.mp hrmem with hr | hr
        · exact hmin r hr
        · simp only [List.mem_singleton] at hr
          subst hr
          rcases not_and_or.mp hc with h1 | h2
          · exact le_trans (le_of_lt hlt) (not_lt.mp h1)
          · exact not_lt.mp h2
  
/-- Folding pair steps preserves the scan invariant. -/
theorem pairInv_foldl (thr : ℚ) (l : List (ℚ × ℚ)) : ∀ (ps : List (ℚ × ℚ)) (st : ScanSt),
    PairInv thr ps st → PairInv thr (ps ++ l) (l.foldl (pairStep thr) st) := by
  induction l with
  | nil => intro ps st h; simpa using h
  | cons p l ih =>
    intro ps st h
    have h2 := ih (ps ++ [p]) (pairStep thr st p) (pairInv_step thr ps st p h)
    simpa [List.append_assoc] using h2

/-- The full one-axis scan satisfies the invariant over all its pairs. -/
theorem scanAxis_pairInv (near far thr : ℚ) (ts : List ℚ) :
    PairInv thr (pairsOf near far ts) (scanAxis near far thr ts) := by
  have h0 : PairInv thr [] ⟨none, none, none⟩ := Or.inl ⟨rfl, by simp⟩
  have h := pairInv_foldl thr (pairsOf near far ts) [] ⟨none, none, none⟩ h0
  simpa [scanAxis, foldl_targetStep_eq_pairs] using h

/-- Membership in the pair list of one axis. -/
theorem mem_pairsOf {near far : ℚ} {ts : List ℚ} {p : ℚ × ℚ} :
    p ∈ pairsOf near far ts ↔ ∃ t ∈ ts, p = (near, t) ∨ p = (far, t) := by
  induction ts with
  | nil => simp [pairsOf]
  | cons t ts ih =>
    simp only [pairsOf, List.mem_cons, ih]
    constructor
    · rintro (rfl | rfl | ⟨t', ht', h⟩)
      · exact ⟨t, Or.inl rfl, Or.inl rfl⟩
      · exact ⟨t, Or.inl rfl, Or.inr rfl⟩
      · exact ⟨t', Or.inr ht', h⟩
    · rintro ⟨t', (rfl | ht'), (rfl | rfl)⟩
      · exact Or.inl rfl
      · exact Or.inr (Or.inl rfl)
      · exact Or.inr (Or.inr ⟨t', ht', Or.inl rfl⟩)
      · exact Or.inr (Or.inr ⟨t', ht', Or.inr rfl⟩)

/-- Case analysis for one `getSnapLines` axis: either no (edge, candidate)
pair is within threshold and the scan state is untouched, or the scan picks
a within-threshold pair of globally minimal distance, records the delta
moving that edge onto the candidate and the candidate as the guide line. -/
theorem scanAxis_cases (near far thr : ℚ) (ts : List ℚ) :
    (scanAxis near far thr ts = ⟨none, none, none⟩ ∧
      ∀ t ∈ ts, ¬(|near - t| < thr) ∧ ¬(|far - t| < thr)) ∨
    (∃ t ∈ ts, ∃ e, (e = near ∨ e = far) ∧ |e - t| < thr ∧
      scanAxis near far thr ts = ⟨some |e - t|, some (t - e), some t⟩ ∧
      ∀ t' ∈ ts, |e - t| ≤ |near - t'| ∧ |e - t| ≤ |far - t'|) := by
  rcases scanAxis_pairInv near far thr ts with ⟨hst, hall⟩ | ⟨p, hp, hlt, hst, hmin⟩
  · left
    refine ⟨hst, fun t ht => ⟨?_, ?_⟩⟩
    · exact hall (near, t) (mem_pairsOf.mpr ⟨t, ht, Or.inl rfl⟩)
    · exact hall (far, t) (mem_pairsOf.mpr ⟨t, ht, Or.inr rfl⟩)
  · right
    rcases mem_pairsOf.mp hp with ⟨t, ht, hpe | hpe⟩ <;> subst hpe
    · refine ⟨t, ht, near, Or.inl rfl, hlt, hst, fun t' ht' => ⟨?_, ?_⟩⟩
      · exact hmin (near, t') (mem_pairsOf.mpr ⟨t', ht', Or.inl rfl⟩)
      · exact hmin (far, t') (mem_pairsOf.mpr ⟨t', ht', Or.inr rfl⟩)
    · refine ⟨t, ht, far, Or.inr rfl, hlt, hst, fun t' ht' => ⟨?_, ?_⟩⟩
      · exact hmin (near, t') (mem_pairsOf.mpr ⟨t', ht', Or.inl rfl⟩)
      · exact hmin (far, t') (mem_pairsOf.mpr ⟨t', ht', Or.inr rfl⟩)

/-- C9: for each axis independently, over the candidates
{0, canvas bound} ∪ {other rects' near/far edges}: the result has at most
one guide per axis; if some candidate is strictly within threshold of the
active rect's near or far edge on that axis, the returned delta moves a
minimal-distance edge exactly onto its candidate (delta = candidate − edge)
and a guide is emitted at that candidate's coordinate; if no candidate is
within threshold on that axis, the delta is `none` and no guide is emitted
for that axis. -/
theorem getSnapLines_spec (active : Rect) (others : List Rect) (cw ch thr : ℚ) :
    (((getSnapLines active others cw ch thr).guides.filter
        (fun g => g.type == GuideType.vertical)).length ≤ 1 ∧
      ((getSnapLines active others cw ch thr).guides.filter
        (fun g => g.type == GuideType.horizontal)).length ≤ 1) ∧
    ((∃ t ∈ xTargetsOf others cw,
        |active.x - t| < thr ∨ |active.x + active.width - t| < thr) →
      ∃ t ∈ xTargetsOf others cw, ∃ e, (e = active.x ∨ e = active.x + active.width) ∧
        |e - t| < thr ∧
        (getSnapLines active others cw ch thr).x = some (t - e) ∧
        (⟨GuideType.vertical, t⟩ : SnapGuide) ∈ (getSnapLines active others cw ch thr).guides ∧
        ∀ t' ∈ xTargetsOf others cw,
          |e - t| ≤ |active.x - t'| ∧ |e - t| ≤ |active.x + active.width - t'|) ∧
    ((∀ t ∈ xTargetsOf others cw,
        ¬(|active.x - t| < thr) ∧ ¬(|active.x + active.width - t| < thr)) →
      (getSnapLines active others cw ch thr).x = none ∧
      ∀ g ∈ (getSnapLines active others cw ch thr).guides, g.type ≠ GuideType.vertical) ∧
    ((∃ t ∈ yTargetsOf others ch,
        |active.y - t| < thr ∨ |active.y + active.height - t| < thr) →
      ∃ t ∈ yTargetsOf others ch, ∃ e, (e = active.y ∨ e = active.y + active.height) ∧
        |e - t| < thr ∧
        (getSnapLines active others cw ch thr).y = some (t - e) ∧
        (⟨GuideType.horizontal, t⟩ : SnapGuide) ∈ (getSnapLines active others cw ch thr).guides ∧
        ∀ t' ∈ yTargetsOf others ch,
          |e - t| ≤ |active.y - t'| ∧ |e - t| ≤ |active.y + active.height - t'|) ∧
    ((∀ t ∈ yTargetsOf others ch,
        ¬(|active.y - t| < thr) ∧ ¬(|active.y + active.height - t| < thr)) →
      (getSnapLines active others cw ch thr).y = none ∧
      ∀ g ∈ (getSnapLines active others cw ch thr).guides, g.type ≠ GuideType.horizontal) := by
  rcases scanAxis_cases active.x (active.x + active.width) thr (xTargetsOf others cw) with
    ⟨hx, hxall⟩ | ⟨tx, htx, ex, hex, hxlt, hx, hxmin⟩ <;>
  rcases scanAxis_cases active.y (active.y + active.height) thr (yTargetsOf others ch) with
    ⟨hy, hyall⟩ | ⟨ty, hty, ey, hey, hylt, hy, hymin⟩
  · refine ⟨⟨?_, ?_⟩, ?_, ?_, ?_, ?_⟩ <;>
      simp only [getSnapLines, hx, hy]
    · simp
    · simp
    · rintro ⟨t, ht, h | h⟩
      · exact absurd h (hxall t ht).1
      · exact absurd h (hxall t ht).2
    · intro _
      simp
    · rintro ⟨t, ht, h | h⟩
      · exact absurd h (hyall t ht).1
      · exact absurd h (hyall t ht).2
    · intro _
      simp
  · refine ⟨⟨?_, ?_⟩, ?_, ?_, ?_, ?_⟩ <;>
      simp only [getSnapLines, hx, hy]
    · simp
    · simp
    · rintro ⟨t, ht, h | h⟩
      · exact absurd h (hxall t ht).1
      · exact absurd h (hxall t ht).2
    · intro _
      simp
    · intro _
      exact ⟨ty, hty, ey, hey, hylt, rfl, by simp, hymin⟩
    · intro hall
      rcases (hall ty hty) with ⟨h1, h2⟩
      rcases hey with rfl | rfl
      · exact absurd hylt h1
      · exact absurd hylt h2
  · refine ⟨⟨?_, ?_⟩, ?_, ?_, ?_, ?_⟩ <;>
      simp only [getSnapLines, hx, hy]
    · simp
    · simp
    · intro _
      exact ⟨tx, htx, ex, hex, hxlt, rfl, by simp, hxmin⟩
    · intro hall
      rcases (hall tx htx) with ⟨h1, h2⟩
      rcases hex with rfl | rfl
      · exact absurd hxlt h1
      · exact absurd hxlt h2
    · rintro ⟨t, ht, h | h⟩
      · exact absurd h (hyall t ht).1
      · exact absurd h (hyall t ht).2
    · intro _
      simp
  · refine ⟨⟨?_, ?_⟩, ?_, ?_, ?_, ?_⟩ <;>
      simp only [getSnapLines, hx, hy]
    · simp
    · simp
    · intro _
      exact ⟨tx, htx, ex, hex, hxlt, rfl, by simp, hxmin⟩
    · intro hall
      rcases (hall tx htx) with ⟨h1, h2⟩
      rcases hex with rfl | rfl
      · exact absurd hxlt h1
      · exact absurd hxlt h2
    · intro _
      exact ⟨ty, hty, ey, hey, hylt, rfl, by simp, hymin⟩
    · intro hall
      rcases (hall ty hty) with ⟨h1, h2⟩
      rcases hey with rfl | rfl
      · exact absurd hylt h1
      · exact absurd hylt h2

/-- Closed instance of `getSnapLines_spec`: for the active rect 18..28 × 0..10
with another rect at 30..80 × 0..50, canvas 5000×5000 and threshold 5, the
within-threshold hypothesis holds on the x axis and yields the snap delta 2
onto the candidate 30 with a vertical guide there. -/
theorem getSnapLines_spec_witness :
    (∃ t ∈ xTargetsOf [⟨30, 0, 50, 50⟩] 5000,
      |(18 : ℚ) - t| < 5 ∨ |(18 : ℚ) + 10 - t| < 5) ∧
    ∃ t ∈ xTargetsOf [⟨30, 0, 50, 50⟩] 5000,
      ∃ e, (e = (Rect.mk 18 0 10 10).x ∨ e = (Rect.mk 18 0 10 10).x + (Rect.mk 18 0 10 10).width) ∧
        |e - t| < 5 ∧
        (getSnapLines ⟨18, 0, 10, 10⟩ [⟨30, 0, 50, 50⟩] 5000 5000 5).x = some (t - e) ∧
        (⟨GuideType.vertical, t⟩ : SnapGuide) ∈
          (getSnapLines ⟨18, 0, 10, 10⟩ [⟨30, 0, 50, 50⟩] 5000 5000 5).guides ∧
        ∀ t' ∈ xTargetsOf [⟨30, 0, 50, 50⟩] 5000,
          |e - t| ≤ |(Rect.mk 18 0 10 10).x - t'| ∧
          |e - t| ≤ |(Rect.mk 18 0 10 10).x + (Rect.mk 18 0 10 10).width - t'| := by
  have hex : ∃ t ∈ xTargetsOf [(⟨30, 0, 50, 50⟩ : Rect)] 5000,
      |(18 : ℚ) - t| < 5 ∨ |(18 : ℚ) + 10 - t| < 5 := by
    refine ⟨30, ?_, Or.inr (by norm_num)⟩
    norm_num [xTargetsOf]
  exact ⟨hex, ((getSnapLines_spec ⟨18, 0, 10, 10⟩ [⟨30, 0, 50, 50⟩] 5000 5000 5).2.1) hex⟩

/-- `find?` by id over an id-preserving map hits exactly the image of the
sought element when ids are unique. -/
theorem find?_map_of_nodup (g : Layer → Layer) (hg : ∀ a, (g a).id = a.id) :
    ∀ (ts : List Layer), ((ts.map (fun l => l.id)).Nodup) → ∀ l ∈ ts,
      (ts.map g).find? (fun a => a.id == l.id) = some (g l) := by
  intro ts
  induction ts with
  | nil => intro _ l hl; cases hl
  | cons h t ih =>
    intro hnd l hl
    rcases List.nodup_cons.mp hnd with ⟨hnotin, hndt⟩
    rcases List.mem_cons.mp hl with rfl | hlt
    · have hb : ((g l).id == l.id) = true := by rw [hg]; exact beq_self_eq_true _
      simp only [List.map_cons, List.find?_cons, hb]
    · have hne : h.id ≠ l.id := by
        intro he
        apply hnotin
        simp only
        rw [he]
        exact List.mem_map_of_mem (fun l => l.id) hlt
      have hb : ((g h).id == l.id) = false := by
        rw [hg]
        exact beq_eq_false_iff_ne.mpr hne
      simp only [List.map_cons, List.find?_cons, hb]
      exact ih hndt l hlt

/-- C1 (amended): with at least 2 distinct selected ids and a non-empty
selected sublist, `handleAlign` rewrites each selected layer *individually*:
the aligned coordinate is set per layer from the group bounding box
(`left`: x := minX; `center-h`: x := center − width/2; `right`:
x := maxX − width; the vertical types analogously on y), the orthogonal
coordinate and both dimensions are unchanged (so pairwise differences on
the orthogonal axis are preserved), and unselected layers are untouched. -/
theorem align_per_layer_snapping (layers : List Layer) (sel : List String)
    (ty : AlignType) (t : Layer) (ts : List Layer)
    (hnd : (layers.map (fun l => l.id)).Nodup)
    (hsz : ¬ selSize sel < 2)
    (hf : layers.filter (fun l => sel.contains l.id) = t :: ts) :
    handleAlign layers sel ty =
      layers.map (fun l =>
        if sel.contains l.id then
          { l with x := alignedX ty (bbMinX t ts) (bbMaxX t ts) l,
                   y := alignedY ty (bbMinY t ts) (bbMaxY t ts) l }
        else l) ∧
    (∀ (ty' : AlignType) (mnX mxX mnY mxY : ℚ) (l : Layer),
      ({ l with x := alignedX ty' mnX mxX l,
                y := alignedY ty' mnY mxY l } : Layer).width = l.width ∧
      ({ l with x := alignedX ty' mnX mxX l,
                y := alignedY ty' mnY mxY l } : Layer).height = l.height) ∧
    ((ty = AlignType.top ∨ ty = AlignType.middleV ∨ ty = AlignType.bottom) →
      ∀ (mnX mxX : ℚ) (l : Layer), alignedX ty mnX mxX l = l.x) ∧
    ((ty = AlignType.left ∨ ty = AlignType.centerH ∨ ty = AlignType.right) →
      ∀ (mnY mxY : ℚ) (l : Layer), alignedY ty mnY mxY l = l.y) := by
  refine ⟨?_, ?_, ?_, ?_⟩
  · have hndt : ((t :: ts).map (fun l => l.id)).Nodup := by
      rw [← hf]
      exact hnd.sublist (List.Sublist.map _ (List.filter_sublist layers))
    unfold handleAlign
    rw [if_neg hsz, hf]
    refine List.map_congr_left ?_
    intro l hl
    by_cases hc : sel.contains l.id
    · have hlt : l ∈ t :: ts := by
        rw [← hf]
        exact List.mem_filter.mpr ⟨hl, hc⟩
      simp only [hc, if_true]
      unfold alignTargets
      rw [find?_map_of_nodup
        (fun l => { l with x := alignedX ty (bbMinX t ts) (bbMaxX t ts) l,
                           y := alignedY ty (bbMinY t ts) (bbMaxY t ts) l })
        (fun a => rfl) (t :: ts) hndt l hlt]
      rfl
    · have hm : l.id ∉ sel := by simpa using hc
      simp [hm]
  · intro ty' mnX mxX mnY mxY l
    exact ⟨rfl, rfl⟩
  · rintro (rfl | rfl | rfl) <;> intro mnX mxX l <;> rfl
  · rintro (rfl | rfl | rfl) <;> intro mnY mxY l <;> rfl

/-- Closed instance of `align_per_layer_snapping` for two selected layers
and type `left`. -/
theorem align_per_layer_snapping_witness :
    handleAlign [⟨"1", 0, 0, 30, 30, "one"⟩, ⟨"2", 10, 5, 40, 30, "two"⟩]
        ["1", "2"] AlignType.left =
      [⟨"1", 0, 0, 30, 30, "one"⟩, ⟨"2", 10, 5, 40, 30, "two"⟩].map (fun l =>
        if (["1", "2"] : List String).contains l.id then
          { l with
            x := alignedX AlignType.left
              (bbMinX ⟨"1", 0, 0, 30, 30, "one"⟩ [⟨"2", 10, 5, 40, 30, "two"⟩])
              (bbMaxX ⟨"1", 0, 0, 30, 30, "one"⟩ [⟨"2", 10, 5, 40, 30, "two"⟩]) l,
            y := alignedY AlignType.left
              (bbMinY ⟨"1", 0, 0, 30, 30, "one"⟩ [⟨"2", 10, 5, 40, 30, "two"⟩])
              (bbMaxY ⟨"1", 0, 0, 30, 30, "one"⟩ [⟨"2", 10, 5, 40, 30, "two"⟩]) l }
        else l) := by
  exact (align_per_layer_snapping
    [⟨"1", 0, 0, 30, 30, "one"⟩, ⟨"2", 10, 5, 40, 30, "two"⟩] ["1", "2"] AlignType.left
    ⟨"1", 0, 0, 30, 30, "one"⟩ [⟨"2", 10, 5, 40, 30, "two"⟩]
    (by decide) (by decide) (by decide)).1

/-- Unique ids make id-lookup injective on the list's elements. -/
theorem mem_id_inj : ∀ (ts : List Layer), ((ts.map (fun l => l.id)).Nodup) →
    ∀ a ∈ ts, ∀ b ∈ ts, a.id = b.id → a = b := by
  intro ts
  induction ts with
  | nil => intro _ a ha; cases ha
  | cons h t ih =>
    intro hnd a ha b hb hab
    rcases List.nodup_cons.mp hnd with ⟨hnotin, hndt⟩
    rcases List.mem_cons.mp ha with rfl | hat <;> rcases List.mem_cons.mp hb with rfl | hbt
    · rfl
    · exfalso
      apply hnotin
      show a.id ∈ t.map (fun l => l.id)
      rw [hab]
      exact List.mem_map_of_mem (fun l => l.id) hbt
    · exfalso
      apply hnotin
      show b.id ∈ t.map (fun l => l.id)
      rw [← hab]
      exact List.mem_map_of_mem (fun l => l.id) hat
    · exact ih hndt a hat b hbt hab

/-- Scoped stitch/grid targets are layers of the document. -/
theorem mem_scopedTargets {layers : List Layer} {sel : List String} {sc : Scope}
    {l : Layer} (h : l ∈ scopedTargets layers sel sc) : l ∈ layers := by
  cases sc with
  | all => exact List.mem_reverse.mp h
  | selected => exact (List.mem_filter.mp (List.mem_reverse.mp h)).1

/-- Scoping preserves uniqueness of ids. -/
theorem scopedTargets_nodup {layers : List Layer} {sel : List String} {sc : Scope}
    (hnd : (layers.map (fun l => l.id)).Nodup) :
    ((scopedTargets layers sel sc).map (fun l => l.id)).Nodup := by
  cases sc with
  | all =>
    simp only [scopedTargets, List.map_reverse, List.nodup_reverse]
    exact hnd
  | selected =>
    simp only [scopedTargets, List.map_reverse, List.nodup_reverse]
    exact hnd.sublist (List.Sublist.map _ (List.filter_sublist layers))

/-- The positioning pass of auto-stitch changes only positions: ids, widths
and heights are preserved pointwise. -/
theorem positionStitch_triples (dir : Dir) (a g : ℚ) :
    ∀ (ls : List Layer) (run : ℚ) (i : ℕ),
      (positionStitch dir a g run i ls).map (fun l => (l.id, l.width, l.height)) =
        ls.map (fun l => (l.id, l.width, l.height)) := by
  intro ls
  induction ls with
  | nil => intro run i; rfl
  | cons l rest ih =>
    intro run i
    by_cases hi : 0 < i <;> cases dir <;>
      simp [positionStitch, hi, ih]

/-- Smart-resize for a vertical stitch: the width becomes the reference
dimension and the height follows the layer's own aspect ratio. -/
theorem smartResize_vertical (ref : ℚ) (l : Layer)
    (hw : 0 < l.width) (hh : 0 < l.height) :
    (smartResize true Dir.vertical ref l).id = l.id ∧
    (smartResize true Dir.vertical ref l).width = ref ∧
    (smartResize true Dir.vertical ref l).height = ref / (l.width / l.height) := by
  simp only [smartResize, if_true, ite_true]
  split_ifs with h
  · exact ⟨rfl, rfl, rfl⟩
  · push_neg at h
    subst h
    refine ⟨rfl, rfl, ?_⟩
    rw [div_div_eq_mul_div, mul_comm, mul_div_assoc, div_self (ne_of_gt hw), mul_one]

/-- Smart-resize for a horizontal stitch. -/
theorem smartResize_horizontal (ref : ℚ) (l : Layer)
    (hw : 0 < l.width) (hh : 0 < l.height) :
    (smartResize true Dir.horizontal ref l).id = l.id ∧
    (smartResize true Dir.horizontal ref l).height = ref ∧
    (smartResize true Dir.horizontal ref l).width = ref * (l.width / l.height) := by
  simp only [smartResize, if_true, ite_true]
  split_ifs with h
  · exact ⟨rfl, rfl, rfl⟩
  · push_neg at h
    subst h
    refine ⟨rfl, rfl, ?_⟩
    rw [mul_comm, div_mul_eq_mul_div, mul_div_assoc, div_self (ne_of_gt hh), mul_one]

/-- `smartResize` preserves the id in every mode. -/
theorem smartResize_id (smart : Bool) (dir : Dir) (ref : ℚ) (l : Layer) :
    (smartResize smart dir ref l).id = l.id := by
  cases smart <;> cases dir <;> unfold smartResize <;> split_ifs <;> rfl

/-- C4 (amended): when `smartStitch` is enabled, the auto-stitch defined
(and invoked) in `App.tsx` resizes every scoped layer against the *first*
scoped target's dimension — `targetLayers[0].width` for vertical and
`targetLayers[0].height` for horizontal — each layer keeping its own aspect
ratio; the reference is not the scoped maximum. -/
theorem stitch_reference_is_first_target (layers : List Layer) (sel : List String)
    (settings : StitchSettings) (dir : Dir) (t : Layer) (ts : List Layer)
    (hscope : scopedTargets layers sel settings.stitchScope = t :: ts)
    (hsmart : settings.smartStitch = true)
    (hnd : (layers.map (fun l => l.id)).Nodup)
    (hpos : ∀ l ∈ layers, 0 < l.width ∧ 0 < l.height) :
    ∀ l ∈ t :: ts,
      ∃ a ∈ handleAutoStitchApp layers sel settings dir,
        a.id = l.id ∧
        (dir = Dir.vertical →
          a.width = t.width ∧ a.height = t.width / (l.width / l.height)) ∧
        (dir = Dir.horizontal →
          a.height = t.height ∧ a.width = t.height * (l.width / l.height)) := by
  intro l hl
  have hlmem : l ∈ layers := mem_scopedTargets (hscope ▸ hl)
  have hlpos := hpos l hlmem
  have hne : layers.isEmpty = false := by
    cases hlay : layers with
    | nil =>
      rw [hlay] at hlmem
      cases hlmem
    | cons _ _ => rfl
  have hndt : ((t :: ts).map (fun l => l.id)).Nodup := by
    rw [← hscope]
    exact scopedTargets_nodup hnd
  -- The reference dimension picked by the App handler.
  set refDim : ℚ := (if settings.smartStitch then
      match dir with
      | Dir.vertical => t.width
      | Dir.horizontal => t.height
    else 0) with hrefDim
  have hres : handleAutoStitchApp layers sel settings dir =
      mergeById layers (autoStitchCore settings dir refDim t ts) := by
    unfold handleAutoStitchApp
    rw [hne, hscope]
    rfl
  -- The processed (smart-resized) targets, and the final positioned list.
  set g : Layer → Layer := smartResize settings.smartStitch dir refDim with hg
  set final : List Layer := autoStitchCore settings dir refDim t ts with hfinal
  have htriples : final.map (fun l => (l.id, l.width, l.height)) =
      ((t :: ts).map g).map (fun l => (l.id, l.width, l.height)) := by
    rw [hfinal]
    unfold autoStitchCore
    cases dir <;>
      exact positionStitch_triples _ _ _ _ _ _
  -- `find?` by id succeeds on the final list.
  have hidmem : ∃ a ∈ final, (a.id == l.id) = true := by
    have : (g l).id = l.id := smartResize_id _ _ _ _
    have hmem : ((g l).id, (g l).width, (g l).height) ∈
        final.map (fun l => (l.id, l.width, l.height)) := by
      rw [htriples]
      exact List.mem_map_of_mem _ (List.mem_map_of_mem g hl)
    rcases List.mem_map.mp hmem with ⟨a, ha, hae⟩
    refine ⟨a, ha, ?_⟩
    have : a.id = l.id := by
      have := congrArg Prod.fst hae
      simp only at this
      rw [this, smartResize_id]
    rw [this]
    exact beq_self_eq_true _
  rcases hidmem with ⟨a0, ha0, hb0⟩
  have hsome : ∃ a, final.find? (fun x => x.id == l.id) = some a := by
    have hs : (final.find? (fun x => x.id == l.id)).isSome = true :=
      List.find?_isSome.mpr ⟨a0, ha0, hb0⟩
    exact Option.isSome_iff_exists.mp hs
  rcases hsome with ⟨a, hfind⟩
  have hamem : a ∈ final := List.mem_of_find?_eq_some hfind
  have hpa : (fun x => x.id == l.id) a = true :=
    @List.find?_some _ (fun x => x.id == l.id) a final hfind
  have haid : a.id = l.id := eq_of_beq hpa
  -- Recover the source target of `a` and identify it with `l`.
  have hatriple : (a.id, a.width, a.height) ∈
      ((t :: ts).map g).map (fun l => (l.id, l.width, l.height)) := by
    rw [← htriples]
    exact List.mem_map_of_mem _ hamem
  rcases List.mem_map.mp hatriple with ⟨b, hb, hbe⟩
  rcases List.mem_map.mp hb with ⟨l', hl', rfl⟩
  have hba : (g l').id = a.id ∧ (g l').width = a.width ∧ (g l').height = a.height := by
    refine ⟨congrArg Prod.fst hbe, ?_, ?_⟩
    · have h2 := congrArg (fun p => p.2.1) hbe
      simpa using h2
    · have h2 := congrArg (fun p => p.2.2) hbe
      simpa using h2
  have hl'id : l'.id = l.id := by
    rw [← smartResize_id settings.smartStitch dir refDim l', hba.1, haid]
  have hl'eq : l' = l := mem_id_inj (t :: ts) hndt l' hl' l hl hl'id
  rw [← hl'eq] at haid hfind hlpos hlmem ⊢
  refine ⟨a, ?_, haid, ?_, ?_⟩
  · rw [hres]
    unfold mergeById
    have hx : (final.find? (fun b => b.id == l'.id)).getD l' = a := by
      rw [hfind]
      rfl
    rw [← hx]
    exact List.mem_map_of_mem _ hlmem
  · rintro rfl
    have hv := smartResize_vertical refDim l' hlpos.1 hlpos.2
    constructor
    · rw [← hba.2.1, hg, hsmart, hv.2.1, hrefDim, hsmart]
      simp
    · rw [← hba.2.2, hg, hsmart, hv.2.2, hrefDim, hsmart]
      simp
  · rintro rfl
    have hv := smartResize_horizontal refDim l' hlpos.1 hlpos.2
    constructor
    · rw [← hba.2.2, hg, hsmart, hv.2.1, hrefDim, hsmart]
      simp
    · rw [← hba.2.1, hg, hsmart, hv.2.2, hrefDim, hsmart]
      simp

/-- Closed instance of `stitch_reference_is_first_target` on the concrete
two-layer document (scope `all`, vertical): the scoped wide layer is resized
against the first target (the small layer). -/
theorem stitch_reference_is_first_target_witness :
    ∃ a ∈ handleAutoStitchApp [wideLayer, smallLayer] [] smartSettings Dir.vertical,
      a.id = wideLayer.id ∧
      (Dir.vertical = Dir.vertical →
        a.width = smallLayer.width ∧
        a.height = smallLayer.width / (wideLayer.width / wideLayer.height)) ∧
      (Dir.vertical = Dir.horizontal →
        a.height = smallLayer.height ∧
        a.width = smallLayer.height * (wideLayer.width / wideLayer.height)) := by
  exact stitch_reference_is_first_target [wideLayer, smallLayer] [] smartSettings Dir.vertical
    smallLayer [wideLayer] (by decide) rfl (by decide) (by decide) wideLayer (by decide)

/-- The running max-array of the grid layout never decreases an entry. -/
theorem maxFold_mono (cap : ℕ) (k : ℕ × Layer → ℕ) (v : ℕ × Layer → ℚ) :
    ∀ (ps : List (ℕ × Layer)) (f : ℕ → ℚ) (c : ℕ), f c ≤ maxFold cap k v ps f c := by
  intro ps
  induction ps with
  | nil => intro f c; exact le_refl _
  | cons p ps ih =>
    intro f c
    refine le_trans ?_ (ih _ c)
    by_cases hp : p.1 < cap
    · simp only [maxFold, List.foldl_cons, hp, if_true]
      by_cases hc : k p = c
      · subst hc
        rw [Function.update_same]
        exact le_max_left _ _
      · rw [Function.update_noteq (Ne.symm hc)]
    · simp only [maxFold, List.foldl_cons, hp, if_false]
      exact le_refl _

/-- Every in-capacity contribution is bounded by the final max-array entry
for its key. -/
theorem maxFold_le (cap : ℕ) (k : ℕ × Layer → ℕ) (v : ℕ × Layer → ℚ) :
    ∀ (ps : List (ℕ × Layer)) (f : ℕ → ℚ) (p : ℕ × Layer),
      p ∈ ps → p.1 < cap → v p ≤ maxFold cap k v ps f (k p) := by
  intro ps
  induction ps with
  | nil => intro f p hp; cases hp
  | cons q ps ih =>
    intro f p hp hcap
    rcases List.mem_cons.mp hp with rfl | hps
    · have hunf : maxFold cap k v (p :: ps) f =
          maxFold cap k v ps (Function.update f (k p) (max (f (k p)) (v p))) := by
        simp only [maxFold, List.foldl_cons, hcap, if_true]
      rw [hunf]
      refine le_trans ?_ (maxFold_mono cap k v ps _ (k p))
      rw [Function.update_same]
      exact le_max_right _ _
    · have step : maxFold cap k v (q :: ps) f =
          maxFold cap k v ps (if q.1 < cap then
            Function.update f (k q) (max (f (k q)) (v q)) else f) := by
        simp only [maxFold, List.foldl_cons]
      rw [step]
      exact ih _ p hps hcap

/-- Elements of the indexed list are elements of the underlying list. -/
theorem mem_enumL {α : Type} : ∀ (n : ℕ) (as : List α) (i : ℕ) (a : α),
    (i, a) ∈ enumL n as → a ∈ as := by
  intro n as
  induction as generalizing n with
  | nil => intro i a h; cases h
  | cons b bs ih =>
    intro i a h
    rcases List.mem_cons.mp h with he | ht
    · cases he
      exact List.mem_cons_self _ _
    · exact List.mem_cons_of_mem _ (ih _ i a ht)

/-- `sumTo` is the finite sum of the first `n` entries. -/
theorem sumTo_eq_sum (f : ℕ → ℚ) : ∀ (n : ℕ), sumTo f n = ∑ i ∈ Finset.range n, f i := by
  intro n
  induction n with
  | zero => rfl
  | succ n ih =>
    rw [Finset.sum_range_succ, ← ih]
    unfold sumTo
    rw [List.range_succ, List.foldl_append]
    rfl

/-- Summing a single-entry array gives that entry. -/
theorem sumTo_update_zero (a : ℚ) (n : ℕ) (hn : 1 ≤ n) :
    sumTo (Function.update (fun _ => (0 : ℚ)) 0 a) n = a := by
  rw [sumTo_eq_sum]
  have : ∀ i ∈ Finset.range n, Function.update (fun _ => (0 : ℚ)) 0 a i =
      if i = 0 then a else 0 := by
    intro i _
    rw [Function.update_apply]
  rw [Finset.sum_congr rfl this, Finset.sum_ite_eq' (Finset.range n) 0 (fun _ => a)]
  have h0 : (0 : ℕ) < n := hn
  simp [Finset.mem_range, h0]

/-- Merging a single processed layer replaces exactly the layers with its id. -/
theorem mergeById_singleton (layers : List Layer) (a : Layer) :
    mergeById layers [a] = layers.map (fun l => if (a.id == l.id) = true then a else l) := by
  unfold mergeById
  refine List.map_congr_left ?_
  intro l _
  by_cases hb : (a.id == l.id) = true <;> simp [List.find?, hb]

/-- Aspect-fit placement of a single layer into its own one-layer grid:
the layer keeps its size and lands at the cell origin. -/
theorem placeInCell_single (dir : Dir) (rows cols : ℕ) (gap sX sY : ℚ) (t : Layer)
    (hw : 0 < t.width) (hh : 0 < t.height) (hcap : 0 < rows * cols) :
    placeInCell dir rows cols gap sX sY
      (Function.update (fun _ => (0 : ℚ)) 0 t.width)
      (Function.update (fun _ => (0 : ℚ)) 0 t.height) 0 t =
    { t with x := sX, y := sY } := by
  have hcol0 : colOf dir rows cols 0 = 0 := by cases dir <;> simp [colOf]
  have hrow0 : rowOf dir rows cols 0 = 0 := by cases dir <;> simp [rowOf]
  have hfit2 : t.width / (t.width / t.height) = t.height := by
    rw [div_div_eq_mul_div, mul_comm, mul_div_assoc, div_self (ne_of_gt hw), mul_one]
  unfold placeInCell
  rw [if_pos hcap, hcol0, hrow0]
  simp only [Function.update_same]
  rw [if_neg (by rw [hfit2]; exact lt_irrefl _)]
  have h0w : sumTo (Function.update (fun _ => (0 : ℚ)) 0 t.width) 0 = 0 := rfl
  have h0h : sumTo (Function.update (fun _ => (0 : ℚ)) 0 t.height) 0 = 0 := rfl
  simp only [h0w, h0h, hfit2]
  congr 1 <;> push_cast <;> ring

/-- Grid layout on a single scoped layer: the layer keeps its width and
height but is moved so that the (ragged, mostly empty) grid is centered on
the viewport center. -/
theorem gridLayout_single (layers : List Layer) (sel : List String)
    (settings : StitchSettings) (pan : ℚ × ℚ) (zoom winW winH : ℚ) (t : Layer)
    (hscope : scopedTargets layers sel settings.stitchScope = [t])
    (hw : 0 < t.width) (hh : 0 < t.height)
    (hrows : 1 ≤ settings.gridRows.getD 2) (hcols : 1 ≤ settings.gridCols.getD 2) :
    handleGridLayout layers sel settings pan zoom winW winH =
      layers.map (fun l =>
        if (t.id == l.id) = true then
          { t with
            x := (-pan.1 + (winW / 2) / zoom) -
              (t.width + ((settings.gridCols.getD 2 - 1 : ℕ) : ℚ) * settings.stitchGap) / 2,
            y := (-pan.2 + (winH / 2) / zoom) -
              (t.height + ((settings.gridRows.getD 2 - 1 : ℕ) : ℚ) * settings.stitchGap) / 2 }
        else l) := by
  have htm : t ∈ layers := mem_scopedTargets (hscope ▸ List.mem_cons_self t [])
  have hne : layers.isEmpty = false := by
    cases hlay : layers with
    | nil => rw [hlay] at htm; cases htm
    | cons _ _ => rfl
  set rows := settings.gridRows.getD 2 with hrowsdef
  set cols := settings.gridCols.getD 2 with hcolsdef
  have hcap : 0 < rows * cols := Nat.mul_pos hrows hcols
  have hcol0 : colOf settings.gridDirection rows cols 0 = 0 := by
    cases settings.gridDirection <;> simp [colOf]
  have hrow0 : rowOf settings.gridDirection rows cols 0 = 0 := by
    cases settings.gridDirection <;> simp [rowOf]
  have hcolW : colWidths settings.gridDirection rows cols [t] =
      Function.update (fun _ => (0 : ℚ)) 0 t.width := by
    unfold colWidths maxFold
    simp only [enumL, List.foldl_cons, List.foldl_nil, hcap, if_true, hcol0]
    rw [max_eq_right (le_of_lt hw)]
  have hrowH : rowHeights settings.gridDirection rows cols [t] =
      Function.update (fun _ => (0 : ℚ)) 0 t.height := by
    unfold rowHeights maxFold
    simp only [enumL, List.foldl_cons, List.foldl_nil, hcap, if_true, hrow0]
    rw [max_eq_right (le_of_lt hh)]
  have hcore : gridLayoutCore settings pan zoom winW winH layers [t] =
      mergeById layers [{ t with
        x := (-pan.1 + (winW / 2) / zoom) -
          (t.width + ((cols - 1 : ℕ) : ℚ) * settings.stitchGap) / 2,
        y := (-pan.2 + (winH / 2) / zoom) -
          (t.height + ((rows - 1 : ℕ) : ℚ) * settings.stitchGap) / 2 }] := by
    unfold gridLayoutCore
    have htg : (if settings.gridReverse = true then List.reverse [t] else [t]) = [t] := by
      cases settings.gridReverse <;> rfl
    rw [htg]
    simp only [← hrowsdef, ← hcolsdef, hcolW, hrowH, enumL, List.map_cons, List.map_nil,
      sumTo_update_zero t.width cols hcols, sumTo_update_zero t.height rows hrows]
    rw [placeInCell_single settings.gridDirection rows cols settings.stitchGap _ _ t hw hh hcap]
  unfold handleGridLayout
  rw [hne, hscope]
  simp only [Bool.false_eq_true, if_false]
  rw [if_neg (by rintro ⟨_, h⟩; cases h)]
  rw [hcore, mergeById_singleton]

/-- Replacing each layer by `t` exactly at `t`'s own id is the identity when
ids are unique. -/
theorem map_replace_self (layers : List Layer) (t : Layer)
    (hnd : (layers.map (fun l => l.id)).Nodup) (htm : t ∈ layers) :
    layers.map (fun l => if (t.id == l.id) = true then t else l) = layers := by
  have h : ∀ l ∈ layers, (if (t.id == l.id) = true then t else l) = l := by
    intro l hl
    by_cases hb : (t.id == l.id) = true
    · rw [if_pos hb]
      exact mem_id_inj layers hnd t htm l hl (eq_of_beq hb)
    · rw [if_neg hb]
  rw [List.map_congr_left h]
  exact List.map_id _

/-- Auto-stitch with exactly one scoped layer changes nothing. -/
theorem stitch_single_noop (layers : List Layer) (sel : List String)
    (settings : StitchSettings) (dir : Dir) (t : Layer)
    (hscope : scopedTargets layers sel settings.stitchScope = [t])
    (hnd : (layers.map (fun l => l.id)).Nodup) :
    handleAutoStitchApp layers sel settings dir = layers := by
  have htm : t ∈ layers := mem_scopedTargets (hscope ▸ List.mem_cons_self t [])
  have hne : layers.isEmpty = false := by
    cases hlay : layers with
    | nil => rw [hlay] at htm; cases htm
    | cons _ _ => rfl
  unfold handleAutoStitchApp
  rw [hne, hscope]
  simp only [Bool.false_eq_true, if_false]
  cases dir with
  | vertical =>
    have hid : smartResize settings.smartStitch Dir.vertical
        (if settings.smartStitch = true then t.width else 0) t = t := by
      cases hsm : settings.smartStitch with
      | false => rfl
      | true => simp [smartResize]
    have hcore : autoStitchCore settings Dir.vertical
        (if settings.smartStitch = true then t.width else 0) t [] = [t] := by
      unfold autoStitchCore
      rw [hid]
      simp [positionStitch]
    show mergeById layers (autoStitchCore settings Dir.vertical
      (if settings.smartStitch = true then t.width else 0) t []) = layers
    rw [hcore, mergeById_singleton]
    exact map_replace_self layers t hnd htm
  | horizontal =>
    have hid : smartResize settings.smartStitch Dir.horizontal
        (if settings.smartStitch = true then t.height else 0) t = t := by
      cases hsm : settings.smartStitch with
      | false => rfl
      | true => simp [smartResize]
    have hcore : autoStitchCore settings Dir.horizontal
        (if settings.smartStitch = true then t.height else 0) t [] = [t] := by
      unfold autoStitchCore
      rw [hid]
      simp [positionStitch]
    show mergeById layers (autoStitchCore settings Dir.horizontal
      (if settings.smartStitch = true then t.height else 0) t []) = layers
    rw [hcore, mergeById_singleton]
    exact map_replace_self layers t hnd htm

/-- Aligning a single target layer leaves it (and everything else) as it is. -/
theorem align_single_noop (layers : List Layer) (sel : List String)
    (ty : AlignType) (t : Layer)
    (hnd : (layers.map (fun l => l.id)).Nodup)
    (hsz : ¬ selSize sel < 2)
    (hf : layers.filter (fun l => sel.contains l.id) = [t]) :
    handleAlign layers sel ty = layers := by
  have htm : t ∈ layers := by
    have : t ∈ layers.filter (fun l => sel.contains l.id) := by
      rw [hf]
      exact List.mem_cons_self t []
    exact (List.mem_filter.mp this).1
  have hx : alignedX ty (bbMinX t []) (bbMaxX t []) t = t.x := by
    cases ty <;> simp [alignedX, bbMinX, bbMaxX] <;> ring
  have hy : alignedY ty (bbMinY t []) (bbMaxY t []) t = t.y := by
    cases ty <;> simp [alignedY, bbMinY, bbMaxY] <;> ring
  have hgt : alignTargets ty t [] = [t] := by
    unfold alignTargets
    rw [List.map_cons, List.map_nil, hx, hy]
  unfold handleAlign
  rw [if_neg hsz, hf]
  show layers.map (fun l => if sel.contains l.id = true then
      (List.find? (fun a => a.id == l.id) (alignTargets ty t [])).getD l else l) = layers
  rw [hgt]
  have h : ∀ l ∈ layers,
      (if sel.contains l.id = true then
        (List.find? (fun a => a.id == l.id) [t]).getD l else l) = l := by
    intro l hl
    by_cases hc : sel.contains l.id = true
    · rw [if_pos hc]
      by_cases hb : (t.id == l.id) = true
      · simp only [List.find?, hb, Option.getD_some]
        exact mem_id_inj layers hnd t htm l hl (eq_of_beq hb)
      · simp only [List.find?, hb, Option.getD_none]
    · rw [if_neg hc]
  rw [List.map_congr_left h]
  exact List.map_id _

/-- Auto-stitch with an empty scoped-target list is a no-op. -/
theorem stitch_empty_noop (layers : List Layer) (sel : List String)
    (settings : StitchSettings) (dir : Dir)
    (hscope : scopedTargets layers sel settings.stitchScope = []) :
    handleAutoStitchApp layers sel settings dir = layers := by
  unfold handleAutoStitchApp
  rw [hscope]
  cases layers.isEmpty <;> simp

/-- Grid layout with an empty scoped-target list is a no-op. -/
theorem grid_empty_noop (layers : List Layer) (sel : List String)
    (settings : StitchSettings) (pan : ℚ × ℚ) (zoom winW winH : ℚ)
    (hscope : scopedTargets layers sel settings.stitchScope = []) :
    handleGridLayout layers sel settings pan zoom winW winH = layers := by
  unfold handleGridLayout
  cases hlay : layers.isEmpty with
  | true => rw [if_pos rfl]
  | false =>
    rw [hscope]
    simp only [Bool.false_eq_true, if_false]
    cases hsc : settings.stitchScope with
    | all =>
      exfalso
      rw [hsc] at hscope
      simp only [scopedTargets] at hscope
      have hnil : layers = [] := List.reverse_eq_nil_iff.mp hscope
      rw [hnil] at hlay
      cases hlay
    | selected =>
      rw [if_pos ⟨rfl, rfl⟩]

/-- C7 (amended): alignment with fewer than 2 distinct selected ids is a
no-op; alignment with exactly one selected layer, and auto-stitch with an
empty or single-layer scope, leave every layer unchanged; grid layout with
an empty scope is a no-op; but grid layout with exactly one scoped layer is
*not* a no-op: it keeps the layer's width and height and moves it so the
one-cell grid is centered on the viewport center. -/
theorem empty_scope_noop :
    (∀ (layers : List Layer) (sel : List String) (ty : AlignType),
      selSize sel < 2 → handleAlign layers sel ty = layers) ∧
    (∀ (layers : List Layer) (sel : List String) (ty : AlignType) (t : Layer),
      (layers.map (fun l => l.id)).Nodup → ¬ selSize sel < 2 →
      layers.filter (fun l => sel.contains l.id) = [t] →
      handleAlign layers sel ty = layers) ∧
    (∀ (layers : List Layer) (sel : List String) (settings : StitchSettings) (dir : Dir),
      scopedTargets layers sel settings.stitchScope = [] →
      handleAutoStitchApp layers sel settings dir = layers) ∧
    (∀ (layers : List Layer) (sel : List String) (settings : StitchSettings) (dir : Dir)
      (t : Layer),
      scopedTargets layers sel settings.stitchScope = [t] →
      (layers.map (fun l => l.id)).Nodup →
      handleAutoStitchApp layers sel settings dir = layers) ∧
    (∀ (layers : List Layer) (sel : List String) (settings : StitchSettings)
      (pan : ℚ × ℚ) (zoom winW winH : ℚ),
      scopedTargets layers sel settings.stitchScope = [] →
      handleGridLayout layers sel settings pan zoom winW winH = layers) ∧
    (∀ (layers : List Layer) (sel : List String) (settings : StitchSettings)
      (pan : ℚ × ℚ) (zoom winW winH : ℚ) (t : Layer),
      scopedTargets layers sel settings.stitchScope = [t] →
      0 < t.width → 0 < t.height →
      1 ≤ settings.gridRows.getD 2 → 1 ≤ settings.gridCols.getD 2 →
      handleGridLayout layers sel settings pan zoom winW winH =
        layers.map (fun l =>
          if (t.id == l.id) = true then
            { t with
              x := (-pan.1 + (winW / 2) / zoom) -
                (t.width + ((settings.gridCols.getD 2 - 1 : ℕ) : ℚ) * settings.stitchGap) / 2,
              y := (-pan.2 + (winH / 2) / zoom) -
                (t.height + ((settings.gridRows.getD 2 - 1 : ℕ) : ℚ) * settings.stitchGap) / 2 }
          else l)) := by
  refine ⟨?_, ?_, ?_, ?_, ?_, ?_⟩
  · intro layers sel ty h
    unfold handleAlign
    rw [if_pos h]
  · intro layers sel ty t hnd hsz hf
    exact align_single_noop layers sel ty t hnd hsz hf
  · intro layers sel settings dir hscope
    exact stitch_empty_noop layers sel settings dir hscope
  · intro layers sel settings dir t hscope hnd
    exact stitch_single_noop layers sel settings dir t hscope hnd
  · intro layers sel settings pan zoom winW winH hscope
    exact grid_empty_noop layers sel settings pan zoom winW winH hscope
  · intro layers sel settings pan zoom winW winH t hscope hw hh hrows hcols
    exact gridLayout_single layers sel settings pan zoom winW winH t hscope hw hh hrows hcols

/-- Closed instance of `empty_scope_noop`: a one-id selection makes
alignment a no-op, and a single-layer scope makes auto-stitch a no-op. -/
theorem empty_scope_noop_witness :
    handleAlign [⟨"t", 0, 0, 100, 100, "t"⟩] ["t"] AlignType.left =
      [⟨"t", 0, 0, 100, 100, "t"⟩] ∧
    handleAutoStitchApp [⟨"t", 0, 0, 100, 100, "t"⟩] [] gridSettings Dir.vertical =
      [⟨"t", 0, 0, 100, 100, "t"⟩] := by
  constructor
  · exact empty_scope_noop.1 [⟨"t", 0, 0, 100, 100, "t"⟩] ["t"] AlignType.left (by decide)
  · exact empty_scope_noop.2.2.2.1 [⟨"t", 0, 0, 100, 100, "t"⟩] [] gridSettings Dir.vertical
      ⟨"t", 0, 0, 100, 100, "t"⟩ (by decide) (by decide)

/-- Alignment never changes any layer's width or height. -/
theorem align_preserves_dims (layers : List Layer) (sel : List String) (ty : AlignType) :
    ∀ l' ∈ handleAlign layers sel ty, ∃ l ∈ layers, l'.width = l.width ∧ l'.height = l.height := by
  intro l' hl'
  unfold handleAlign at hl'
  split at hl'
  · exact ⟨l', hl', rfl, rfl⟩
  · split at hl'
    next => exact ⟨l', hl', rfl, rfl⟩
    next t ts heq =>
      rcases List.mem_map.mp hl' with ⟨l, hl, rfl⟩
      by_cases hc : sel.contains l.id = true
      · simp only [hc, if_true]
        cases hfind : (alignTargets ty t ts).find? (fun a => a.id == l.id) with
        | none =>
          simp only [hfind, Option.getD_none]
          exact ⟨l, hl, rfl, rfl⟩
        | some a =>
          simp only [hfind, Option.getD_some]
          have ha : a ∈ alignTargets ty t ts := List.mem_of_find?_eq_some hfind
          unfold alignTargets at ha
          rcases List.mem_map.mp ha with ⟨l2, hl2, rfl⟩
          have hl2mem : l2 ∈ layers := by
            have hm : l2 ∈ layers.filter (fun l => sel.contains l.id) := by
              rw [heq]
              exact hl2
            exact (List.mem_filter.mp hm).1
          exact ⟨l2, hl2mem, rfl, rfl⟩
      · simp only [hc, if_false]
        exact ⟨l, hl, rfl, rfl⟩

/-- With smart stitch off, the stitch pipeline only moves layers: the
(id, width, height) triples are unchanged. -/
theorem stitch_nonsmart_triples (settings : StitchSettings) (dir : Dir) (refDim : ℚ)
    (t : Layer) (ts : List Layer) (hsm : settings.smartStitch = false) :
    (autoStitchCore settings dir refDim t ts).map (fun l => (l.id, l.width, l.height)) =
      (t :: ts).map (fun l => (l.id, l.width, l.height)) := by
  have hid : smartResize settings.smartStitch dir refDim = fun l => l := by
    funext l
    rw [hsm]
    rfl
  unfold autoStitchCore
  rw [hid]
  simp only [List.map_id]
  cases dir <;> rw [positionStitch_triples] <;> simp

/-- Layers produced by an id-keyed merge either come from the original list
or share their dimensions with a source layer of the processed list. -/
theorem mergeById_preserves_dims (layers processed source : List Layer)
    (htr : processed.map (fun l => (l.id, l.width, l.height)) =
           source.map (fun l => (l.id, l.width, l.height))) :
    ∀ l2 ∈ mergeById layers processed,
      (∃ l ∈ layers, l2.width = l.width ∧ l2.height = l.height) ∨
      (∃ l ∈ source, l2.width = l.width ∧ l2.height = l.height) := by
  intro l2 hl2
  unfold mergeById at hl2
  rcases List.mem_map.mp hl2 with ⟨l, hl, rfl⟩
  cases hfind : processed.find? (fun a => a.id == l.id) with
  | none =>
    left
    simp only [hfind, Option.getD_none]
    exact ⟨l, hl, rfl, rfl⟩
  | some a =>
    right
    simp only [hfind, Option.getD_some]
    have ha := List.mem_of_find?_eq_some hfind
    have htr2 : (a.id, a.width, a.height) ∈
        source.map (fun l => (l.id, l.width, l.height)) := by
      rw [← htr]
      exact List.mem_map_of_mem _ ha
    rcases List.mem_map.mp htr2 with ⟨l3, hl3, he⟩
    refine ⟨l3, hl3, ?_, ?_⟩
    · exact (congrArg (fun p : String × ℚ × ℚ => p.2.1) he).symm
    · exact (congrArg (fun p : String × ℚ × ℚ => p.2.2) he).symm

/-- Non-smart auto-stitch never changes any layer's width or height. -/
theorem stitch_preserves_dims (layers : List Layer) (sel : List String)
    (settings : StitchSettings) (dir : Dir) (hsm : settings.smartStitch = false) :
    ∀ l2 ∈ handleAutoStitchApp layers sel settings dir,
      ∃ l ∈ layers, l2.width = l.width ∧ l2.height = l.height := by
  intro l2 hl2
  unfold handleAutoStitchApp at hl2
  split at hl2
  · exact ⟨l2, hl2, rfl, rfl⟩
  · split at hl2
    next => exact ⟨l2, hl2, rfl, rfl⟩
    next t ts heq =>
      rcases mergeById_preserves_dims layers _ (t :: ts)
          (stitch_nonsmart_triples settings dir _ t ts hsm) l2 hl2 with
        ⟨l, hlm, h⟩ | ⟨l, hlm, h⟩
      · exact ⟨l, hlm, h⟩
      · exact ⟨l, mem_scopedTargets (heq ▸ hlm), h⟩

/-- The single-layer drag step writes only positions. -/
theorem drag_preserves_dims (l : Layer) (init : Rect) (dx dy : ℚ) (sg : Bool)
    (others : List Rect) (thr : ℚ) :
    (dragStepSingle l init dx dy sg others thr).width = l.width ∧
    (dragStepSingle l init dx dy sg others thr).height = l.height := by
  unfold dragStepSingle
  split_ifs <;> exact ⟨rfl, rfl⟩

/-- Duplication copies the source layer's dimensions. -/
theorem duplicate_preserves_dims (layers : List Layer) (layerId newId : String) :
    ∀ l' ∈ duplicateLayer layers layerId newId,
      ∃ l ∈ layers, l'.width = l.width ∧ l'.height = l.height := by
  intro l' hl'
  unfold duplicateLayer at hl'
  split at hl'
  · exact ⟨l', hl', rfl, rfl⟩
  next l hfind =>
    rcases List.mem_append.mp hl' with h | h
    · exact ⟨l', h, rfl, rfl⟩
    · simp only [List.mem_singleton] at h
      subst h
      exact ⟨l, List.mem_of_find?_eq_some hfind, rfl, rfl⟩

/-- The final clamp of `resizeLayer` enforces the 20px floor. -/
theorem resizeLayer_min (layer : Rect) (handle : String) (dx dy : ℚ) (kr : Bool) :
    20 ≤ (resizeLayer layer handle dx dy kr).width ∧
    20 ≤ (resizeLayer layer handle dx dy kr).height := by
  have hclamp : ∀ w : ℚ, 20 ≤ (if w < 20 then (20 : ℚ) else w) := by
    intro w
    split_ifs with h
    · exact le_refl _
    · linarith
  exact ⟨hclamp _, hclamp _⟩

/-- Aspect-fitting into a cell at least as large as the layer keeps both
dimensions at or above the 20px floor. -/
theorem aspectFit_min (w h cw ch : ℚ) (hw : 20 ≤ w) (hh : 20 ≤ h)
    (hcw : w ≤ cw) (hch : h ≤ ch) :
    20 ≤ (if cw / (w / h) > ch then (ch * (w / h), ch) else (cw, cw / (w / h))).1 ∧
    20 ≤ (if cw / (w / h) > ch then (ch * (w / h), ch) else (cw, cw / (w / h))).2 := by
  have hwpos : (0 : ℚ) < w := by linarith
  have hhpos : (0 : ℚ) < h := by linarith
  have hapos : (0 : ℚ) < w / h := div_pos hwpos hhpos
  split_ifs with hf
  · constructor
    · have h1 : h * (w / h) ≤ ch * (w / h) := mul_le_mul_of_nonneg_right hch (le_of_lt hapos)
      have h2 : h * (w / h) = w := by
        rw [mul_comm, div_mul_eq_mul_div, mul_div_assoc, div_self (ne_of_gt hhpos), mul_one]
      simp only
      linarith
    · simp only
      linarith
  · constructor
    · simp only
      linarith
    · have h1 : w / (w / h) ≤ cw / (w / h) := (div_le_div_right hapos).mpr hcw
      have h2 : w / (w / h) = h := by
        rw [div_div_eq_mul_div, mul_comm, mul_div_assoc, div_self (ne_of_gt hwpos), mul_one]
      simp only
      linarith

/-- One grid placement keeps the 20px floor when the cell is at least as
large as the layer. -/
theorem placeInCell_min (dir : Dir) (rows cols : ℕ) (gap sX sY : ℚ)
    (colW rowH : ℕ → ℚ) (i : ℕ) (lt : Layer)
    (hmin : 20 ≤ lt.width ∧ 20 ≤ lt.height)
    (hcw : i < rows * cols → lt.width ≤ colW (colOf dir rows cols i))
    (hrh : i < rows * cols → lt.height ≤ rowH (rowOf dir rows cols i)) :
    20 ≤ (placeInCell dir rows cols gap sX sY colW rowH i lt).width ∧
    20 ≤ (placeInCell dir rows cols gap sX sY colW rowH i lt).height := by
  by_cases hi : i < rows * cols
  · unfold placeInCell
    rw [if_pos hi]
    exact aspectFit_min lt.width lt.height (colW (colOf dir rows cols i))
      (rowH (rowOf dir rows cols i)) hmin.1 hmin.2 (hcw hi) (hrh hi)
  · unfold placeInCell
    rw [if_neg hi]
    exact hmin

/-- Merging keeps the 20px floor when both sides satisfy it. -/
theorem mergeById_min (layers processed : List Layer)
    (hminL : ∀ l ∈ layers, 20 ≤ l.width ∧ 20 ≤ l.height)
    (hminP : ∀ a ∈ processed, 20 ≤ a.width ∧ 20 ≤ a.height) :
    ∀ l2 ∈ mergeById layers processed, 20 ≤ l2.width ∧ 20 ≤ l2.height := by
  intro l2 hl2
  unfold mergeById at hl2
  rcases List.mem_map.mp hl2 with ⟨l, hl, rfl⟩
  cases hfind : processed.find? (fun a => a.id == l.id) with
  | none =>
    simp only [hfind, Option.getD_none]
    exact hminL l hl
  | some a =>
    simp only [hfind, Option.getD_some]
    exact hminP a (List.mem_of_find?_eq_some hfind)

/-- Grid layout preserves the 20px minimum-size floor. -/
theorem grid_preserves_min (layers : List Layer) (sel : List String)
    (settings : StitchSettings) (pan : ℚ × ℚ) (zoom winW winH : ℚ)
    (hmin : ∀ l ∈ layers, 20 ≤ l.width ∧ 20 ≤ l.height) :
    ∀ l2 ∈ handleGridLayout layers sel settings pan zoom winW winH,
      20 ≤ l2.width ∧ 20 ≤ l2.height := by
  intro l2 hl2
  unfold handleGridLayout at hl2
  split at hl2
  · exact hmin l2 hl2
  · dsimp only at hl2
    split at hl2
    · exact hmin l2 hl2
    · unfold gridLayoutCore at hl2
      refine mergeById_min layers _ hmin ?_ l2 hl2
      intro a ha
      rcases List.mem_map.mp ha with ⟨p, hp, rfl⟩
      have hmemT : ∀ x ∈ (if settings.gridReverse = true then
          (scopedTargets layers sel settings.stitchScope).reverse
        else scopedTargets layers sel settings.stitchScope), x ∈ layers := by
        intro x hx
        by_cases hrev : settings.gridReverse = true
        · rw [if_pos hrev] at hx
          exact mem_scopedTargets (List.mem_reverse.mp hx)
        · rw [if_neg hrev] at hx
          exact mem_scopedTargets hx
      have hpl : p.2 ∈ layers := by
        refine hmemT p.2 ?_
        rcases p with ⟨i, lt⟩
        exact mem_enumL 0 _ i lt hp
      refine placeInCell_min _ _ _ _ _ _ _ _ p.1 p.2 (hmin p.2 hpl) ?_ ?_
      · intro hi
        exact maxFold_le _ _ _ _ _ p hp hi
      · intro hi
        exact maxFold_le _ _ _ _ _ p hp hi

/-- C6 (amended): `resizeLayer` always outputs width, height ≥ 20; alignment,
non-smart auto-stitch, dragging and duplication never change any layer's
width or height; and grid layout preserves the ≥ 20 floor.  (The snap-delta
adjustment applied after `resizeLayer` is excluded: it can break the floor.) -/
theorem min_size_by_operation :
    (∀ (layer : Rect) (handle : String) (dx dy : ℚ) (kr : Bool),
      20 ≤ (resizeLayer layer handle dx dy kr).width ∧
      20 ≤ (resizeLayer layer handle dx dy kr).height) ∧
    (∀ (layers : List Layer) (sel : List String) (ty : AlignType),
      ∀ l2 ∈ handleAlign layers sel ty,
        ∃ l ∈ layers, l2.width = l.width ∧ l2.height = l.height) ∧
    (∀ (layers : List Layer) (sel : List String) (settings : StitchSettings) (dir : Dir),
      settings.smartStitch = false →
      ∀ l2 ∈ handleAutoStitchApp layers sel settings dir,
        ∃ l ∈ layers, l2.width = l.width ∧ l2.height = l.height) ∧
    (∀ (l : Layer) (init : Rect) (dx dy : ℚ) (sg : Bool) (others : List Rect) (thr : ℚ),
      (dragStepSingle l init dx dy sg others thr).width = l.width ∧
      (dragStepSingle l init dx dy sg others thr).height = l.height) ∧
    (∀ (layers : List Layer) (layerId newId : String),
      ∀ l2 ∈ duplicateLayer layers layerId newId,
        ∃ l ∈ layers, l2.width = l.width ∧ l2.height = l.height) ∧
    (∀ (layers : List Layer) (sel : List String) (settings : StitchSettings)
      (pan : ℚ × ℚ) (zoom winW winH : ℚ),
      (∀ l ∈ layers, 20 ≤ l.width ∧ 20 ≤ l.height) →
      ∀ l2 ∈ handleGridLayout layers sel settings pan zoom winW winH,
        20 ≤ l2.width ∧ 20 ≤ l2.height) := by
  refine ⟨?_, ?_, ?_, ?_, ?_, ?_⟩
  · intro layer handle dx dy kr
    exact resizeLayer_min layer handle dx dy kr
  · intro layers sel ty
    exact align_preserves_dims layers sel ty
  · intro layers sel settings dir hsm
    exact stitch_preserves_dims layers sel settings dir hsm
  · intro l init dx dy sg others thr
    exact drag_preserves_dims l init dx dy sg others thr
  · intro layers layerId newId
    exact duplicate_preserves_dims layers layerId newId
  · intro layers sel settings pan zoom winW winH hmin
    exact grid_preserves_min layers sel settings pan zoom winW winH hmin

/-- Closed instance of `min_size_by_operation`: the bare resize floor at a
concrete input, and grid layout on a concrete ≥20-sized document. -/
theorem min_size_by_operation_witness :
    (20 ≤ (resizeLayer ⟨0, 0, 30, 30⟩ "e" (-15) 0 false).width ∧
      20 ≤ (resizeLayer ⟨0, 0, 30, 30⟩ "e" (-15) 0 false).height) ∧
    (∀ l2 ∈ handleGridLayout [⟨"t", 0, 0, 100, 100, "t"⟩] [] gridSettings (0, 0) 1 800 600,
      20 ≤ l2.width ∧ 20 ≤ l2.height) := by
  constructor
  · exact min_size_by_operation.1 ⟨0, 0, 30, 30⟩ "e" (-15) 0 false
  · exact min_size_by_operation.2.2.2.2.2 [⟨"t", 0, 0, 100, 100, "t"⟩] [] gridSettings
      (0, 0) 1 800 600 (by decide)
